import Mathlib

set_option maxRecDepth 200000

/-!
Verification of the crypto-payment / withdrawal core of the fitness-backend
repository.  The JavaScript source (routes/crypto.js, cryptoBot.js, the
database layer and the server start-up file) is shallowly embedded: money
amounts are rationals, the document store is an association list, and each
route handler becomes a pure function from store state to store state plus
an HTTP-level response.  Timestamps are integers (milliseconds); fields of
the store documents that no verified property mentions (display names,
comments, processed_at and the like) are not modelled.
-/

namespace FitBackend

/-! ## Money rounding (routes/crypto.js, `roundMoney`)

`roundMoney = (value) => Math.round((value + Number.EPSILON) * 100) / 100`.
`Math.round` rounds half-up towards +infinity, i.e. `x ↦ ⌊x + 1/2⌋`, and
`Number.EPSILON = 2^-52`. -/

def numberEPSILON : ℚ := 1 / 2 ^ 52

def jsRound (x : ℚ) : ℤ := Rat.floor (x + 1 / 2)

def roundMoney (v : ℚ) : ℚ := (jsRound ((v + numberEPSILON) * 100) : ℚ) / 100

/-- The stored `withdrawalFeePercent` setting if it parses to a finite
number, otherwise 3.  The setting is modelled as `Option ℚ`. -/
def getWithdrawalFeePercent (setting : Option ℚ) : ℚ := setting.getD 3

/-! ## Basic data of the store -/

inductive PayType
  | deposit
  | purchase
deriving DecidableEq, Repr

inductive InvStatus
  | PROCESSING
  | DONE
  | FAILED
deriving DecidableEq, Repr

inductive WStatus
  | PENDING
  | PROCESSING
  | APPROVED
  | REJECTED
deriving DecidableEq, Repr

inductive Role
  | USER
  | TRAINER
  | MODERATOR
  | ADMIN
deriving DecidableEq, Repr

/-- Role gate of the withdrawal-creation route:
`['TRAINER', 'MODERATOR', 'ADMIN'].includes(req.user.role)`. -/
def eligibleForWithdrawal : Role → Bool
  | Role.TRAINER => true
  | Role.MODERATOR => true
  | Role.ADMIN => true
  | Role.USER => false

/-- Role gate of the reviewer routes:
`['MODERATOR', 'ADMIN'].includes(req.user.role)`. -/
def reviewerRole : Role → Bool
  | Role.MODERATOR => true
  | Role.ADMIN => true
  | _ => false

/-- One entry of the in-process `pendingInvoices` map (cryptoBot.js). -/
structure PendingInv where
  type : PayType
  userId : ℤ
  programId : Option String := none
  trainerId : Option ℤ := none
deriving DecidableEq, Repr

/-- One `CryptoInvoice` document (the invoice-id keyed dedup record). -/
structure InvoiceRec where
  type : PayType
  status : InvStatus
  telegram_id : ℤ
  amount : ℚ
  asset : String
  error : String := ""
deriving DecidableEq, Repr

/-- One `Program` document (the fields the payment core reads). -/
structure Program where
  authorId : ℤ
  price : ℚ
  purchase_count : ℕ := 0
deriving DecidableEq, Repr

/-- One `WithdrawalRequest` document. -/
structure WR where
  id : String
  telegram_id : ℤ
  amount : ℚ
  status : WStatus
  spend_id : Option String := none
  fee_percent : Option ℚ := none
  fee_amount : Option ℚ := none
  net_amount : Option ℚ := none
  reviewed_by : Option ℤ := none
  rejection_reason : Option String := none
  created_at : ℤ := 0
  updated_at : Option ℤ := none
deriving DecidableEq, Repr

/-- One call of the gateway `transfer` method (cryptoBot.js `transfer`). -/
structure TransferEv where
  user_id : ℤ
  asset : String
  amount : ℚ
  spend_id : String
deriving DecidableEq, Repr

/-- HTTP-level responses distinguished by the verified properties. -/
inductive ApiResp
  | ok
  | success
  | badRequest
  | notFound
  | conflict
  | serverError
deriving DecidableEq, Repr

/-! ## Association-list store primitives -/

/-- First-match lookup, the JS `Map.get` / Mongo `findOne` by key. -/
def alookup {κ α : Type} [DecidableEq κ] : List (κ × α) → κ → Option α
  | [], _ => none
  | (k', v) :: t, k => if k' = k then some v else alookup t k

/-- JS `Map.delete`. -/
def aerase {κ α : Type} [DecidableEq κ] (l : List (κ × α)) (k : κ) : List (κ × α) :=
  l.filter (fun kv => ¬ kv.1 = k)

/-- Mongo `updateOne({key}, {$inc: {balance: a}})`: adds to the first
matching entry, does nothing when the key is absent. -/
def bump {κ : Type} [DecidableEq κ] : List (κ × ℚ) → κ → ℚ → List (κ × ℚ)
  | [], _, _ => []
  | (i, b) :: t, k, a => if i = k then (i, b + a) :: t else (i, b) :: bump t k a

/-- Create-if-absent: `createUser` plus default balance 0 when the user does
not exist yet. -/
def ensureUser (l : List (ℤ × ℚ)) (k : ℤ) : List (ℤ × ℚ) :=
  match alookup l k with
  | some _ => l
  | none => l ++ [(k, 0)]

/-- Mongo `updateOne({invoice_id}, {$set: {status, error}})` on the
`CryptoInvoice` collection (first match; the id is unique). -/
def setInvoice : List (String × InvoiceRec) → String → InvStatus → String →
    List (String × InvoiceRec)
  | [], _, _, _ => []
  | (k, r) :: t, id, st, err =>
    if k = id then (k, { r with status := st, error := err }) :: t
    else (k, r) :: setInvoice t id st err

/-- Counter increment `Program.updateOne` with an `$inc` of `purchase_count`
by one. -/
def incPurchaseCount : List (String × Program) → String → List (String × Program)
  | [], _ => []
  | (k, p) :: t, id =>
    if k = id then (k, { p with purchase_count := p.purchase_count + 1 }) :: t
    else (k, p) :: incPurchaseCount t id

/-! ## The store state

One record holds every collection the payment core touches, the in-process
`pendingInvoices` map of cryptoBot.js, the configured admin account
(`config.adminTelegramId`, 0 when unset), the `withdrawalFeePercent`
setting, and the log of gateway `transfer` calls. -/

structure St where
  pending : List (String × PendingInv) := []
  invoices : List (String × InvoiceRec) := []
  users : List (ℤ × ℚ) := []
  purchases : List (ℤ × String) := []
  programs : List (String × Program) := []
  requests : List WR := []
  feePercentSetting : Option ℚ := none
  admin : ℤ := 0
  transfers : List TransferEv := []
deriving DecidableEq, Repr

/-! ## cryptoBot.js -/

/-- The spend id `withdrawToTrainer` manufactures from the wall clock:
`` `withdraw_${trainerId}_${Date.now()}` ``. -/
def genSpend (trainerId : ℤ) (now : ℤ) : String :=
  "withdraw_" ++ toString trainerId ++ "_" ++ toString now

/-- The cryptoBot.js `withdrawToTrainer(trainerId, asset, amount, comment)`.
The function takes only these four parameters — the approval route passes a
fifth `spendId` argument, which JavaScript silently discards — and builds the
gateway transfer with a fresh `spend_id` derived from `Date.now()` (`now`).
The `comment` only feeds the transfer text and is not modelled. -/
def withdrawToTrainer (trainerId : ℤ) (asset : String) (amount : ℚ)
    (now : ℤ) : TransferEv :=
  { user_id := trainerId, asset := asset, amount := amount,
    spend_id := genSpend trainerId now }

/-- A CryptoBot webhook body: `update_type` plus the paid invoice
(`payload.invoice_id`, `payload.amount`, `payload.asset`). -/
structure WebhookUpdate where
  update_type : String
  invoice_id : String
  amount : ℚ
  asset : String
deriving DecidableEq, Repr

/-- What `handleCryptoWebhook` hands back to the route on success. -/
structure HookResult where
  type : PayType
  invoiceId : String
  userId : ℤ
  amount : ℚ
  asset : String
  programId : Option String
  trainerId : Option ℤ
deriving DecidableEq, Repr

/-- The cryptoBot.js `handleCryptoWebhook(update)`: non-`invoice_paid`
updates and invoices absent from the in-process `pendingInvoices` map yield
`null`; otherwise the entry is deleted from the map and the stored data is
combined with the paid amount of the webhook body. -/
def handleCryptoWebhook (s : St) (u : WebhookUpdate) : St × Option HookResult :=
  if u.update_type ≠ "invoice_paid" then (s, none)
  else
    match alookup s.pending u.invoice_id with
    | none => (s, none)
    | some p =>
      ({ s with pending := aerase s.pending u.invoice_id },
        some { type := p.type, invoiceId := u.invoice_id, userId := p.userId,
               amount := u.amount, asset := u.asset,
               programId := p.programId, trainerId := p.trainerId })

/-! ## routes/crypto.js — the webhook route -/

/-- The `deposit` branch of the webhook dispatch: create the target user if
needed, then `updateUserBalance(targetUserId, result.amount)`. -/
def applyDeposit (s : St) (uid : ℤ) (amount : ℚ) : St :=
  let s := { s with users := ensureUser s.users uid }
  { s with users := bump s.users uid amount }

/-- The `purchase` branch of the webhook dispatch.  Returns `false` when the
program does not exist (`markInvoiceFailed('program_not_found')` path).
`paidAmount = Number(result.amount) || Number(program.price) || 0`,
`trainerId = Number(result.trainerId) || program.authorId`,
`trainerShare = roundMoney(paidAmount * 0.9)`,
`adminShare = roundMoney(paidAmount - trainerShare)`. -/
def applyPurchase (s : St) (buyer : ℤ) (programId : Option String)
    (amount : ℚ) (trainerId? : Option ℤ) : St × Bool :=
  match alookup s.programs (programId.getD "") with
  | none => (s, false)
  | some prog =>
    let pid := programId.getD ""
    let s := { s with users := ensureUser s.users buyer }
    if (buyer, pid) ∈ s.purchases then (s, true)
    else
      let s := { s with purchases := s.purchases ++ [(buyer, pid)],
                        programs := incPurchaseCount s.programs pid }
      let paidAmount := if amount ≠ 0 then amount else prog.price
      if 0 < paidAmount then
        let trainerId := match trainerId? with
          | some t => if t ≠ 0 then t else prog.authorId
          | none => prog.authorId
        let trainerShare := roundMoney (paidAmount * (9 / 10))
        let adminShare := roundMoney (paidAmount - trainerShare)
        let s := if trainerId ≠ 0 then
            { s with users := bump s.users trainerId trainerShare } else s
        let s := if 0 < adminShare ∧ s.admin ≠ 0 then
            { s with users := bump s.users s.admin adminShare } else s
        (s, true)
      else (s, true)

/-- The dispatch of `router.post('/webhook')` after the idempotency insert,
including the final `status: 'DONE'` / `status: 'FAILED'` update. -/
def dispatchPayment (s : St) (r : HookResult) : St × ApiResp :=
  match r.type with
  | PayType.deposit =>
    let s := applyDeposit s r.userId r.amount
    ({ s with invoices := setInvoice s.invoices r.invoiceId InvStatus.DONE "" },
      ApiResp.ok)
  | PayType.purchase =>
    let (s, okp) := applyPurchase s r.userId r.programId r.amount r.trainerId
    if okp then
      ({ s with invoices := setInvoice s.invoices r.invoiceId InvStatus.DONE "" },
        ApiResp.ok)
    else
      ({ s with invoices :=
          setInvoice s.invoices r.invoiceId InvStatus.FAILED "program_not_found" },
        ApiResp.ok)

/-- The webhook route `router.post('/webhook')` after a valid signature: run
`handleCryptoWebhook`, then the `CryptoInvoice.create` idempotency insert
(duplicate key: `DONE`/`PROCESSING` is acknowledged and dropped, `FAILED` is
re-claimed to `PROCESSING`), then the dispatch. -/
def webhookStep (s0 : St) (u : WebhookUpdate) : St × ApiResp :=
  match handleCryptoWebhook s0 u with
  | (s, none) => (s, ApiResp.ok)
  | (s, some r) =>
    match alookup s.invoices r.invoiceId with
    | some existing =>
      if existing.status = InvStatus.DONE ∨ existing.status = InvStatus.PROCESSING then
        (s, ApiResp.ok)
      else
        let s := { s with invoices := setInvoice s.invoices r.invoiceId InvStatus.PROCESSING "" }
        dispatchPayment s r
    | none =>
      let rec0 : InvoiceRec :=
        { type := r.type, status := InvStatus.PROCESSING,
          telegram_id := r.userId, amount := r.amount, asset := r.asset }
      let s := { s with invoices := s.invoices ++ [(r.invoiceId, rec0)] }
      dispatchPayment s r

/-- Iterated delivery: `n` sequential deliveries of the same webhook body. -/
def iterWebhook : ℕ → St → WebhookUpdate → St
  | 0, s, _ => s
  | n + 1, s, u => iterWebhook n (webhookStep s u).1 u

/-! ## routes/crypto.js — withdrawal requests -/

/-- Modelled from the spec: `debitUserBalanceIfEnough` is imported by
routes/crypto.js from the database layer but its definition is not among the
provided sources.  Per the spec it atomically debits the requester's balance
by the full amount and reports success, or fails without touching the
balance when funds are insufficient. -/
def debitUserBalanceIfEnough : List (ℤ × ℚ) → ℤ → ℚ → List (ℤ × ℚ) × Bool
  | [], _, _ => ([], false)
  | (i, b) :: t, k, a =>
    if i = k then
      if a ≤ b then ((i, b - a) :: t, true) else ((i, b) :: t, false)
    else
      let r := debitUserBalanceIfEnough t k a
      ((i, b) :: r.1, r.2)

/-- The creation route `router.post('/withdrawals')`: role gate, amount
validation, escrow debit,
persist the `PENDING` request; when persisting throws (`persistOk = false`)
the debit is refunded before the error surfaces as a 500. -/
def wdCreate (s : St) (callerId : ℤ) (role : Role) (amount : ℚ)
    (reqId : String) (now : ℤ) (persistOk : Bool) : St × ApiResp :=
  if ¬ eligibleForWithdrawal role then (s, ApiResp.badRequest)
  else if ¬ 0 < amount then (s, ApiResp.badRequest)
  else
    match alookup s.users callerId with
    | none => (s, ApiResp.notFound)
    | some _ =>
      let r := debitUserBalanceIfEnough s.users callerId amount
      if ¬ r.2 then (s, ApiResp.badRequest)
      else if persistOk then
        ({ s with users := r.1,
                  requests := s.requests ++
                    [{ id := reqId, telegram_id := callerId, amount := amount,
                       status := WStatus.PENDING, created_at := now }] },
          ApiResp.success)
      else
        ({ s with users := bump r.1 callerId amount }, ApiResp.serverError)

/-- Mongo `findOneAndUpdate(query, update, {new: true})` on the withdrawal
collection: rewrite the first document matching `q` with `f` and also return
the rewritten document. -/
def findOneAndUpdate (q : WR → Bool) (f : WR → WR) :
    List WR → Option (List WR × WR)
  | [] => none
  | r :: t =>
    if q r then some (f r :: t, f r)
    else (findOneAndUpdate q f t).map (fun x => (r :: x.1, x.2))

/-- Mongo `updateOne(query, update)`: like `findOneAndUpdate` but leaves the
list unchanged when nothing matches. -/
def updateOneWR (q : WR → Bool) (f : WR → WR) (l : List WR) : List WR :=
  match findOneAndUpdate q f l with
  | none => l
  | some x => x.1

/-- Mongo `findOne({id})`. -/
def findWR : List WR → String → Option WR
  | [], _ => none
  | r :: t, id => if r.id = id then some r else findWR t id

/-- The reject route `router.post('/withdrawals/:id/reject')`: a single
conditional update
`{id, status: PENDING} → REJECTED` guards the transition; on success the
escrowed amount is refunded with `updateUserBalance`. -/
def wdReject (s : St) (id : String) (reviewer : ℤ) (reason : String)
    (now : ℤ) : St × ApiResp :=
  match findOneAndUpdate
      (fun r => decide (r.id = id) && decide (r.status = WStatus.PENDING))
      (fun r => { r with status := WStatus.REJECTED,
                         reviewed_by := some reviewer,
                         rejection_reason := some reason,
                         updated_at := some now })
      s.requests with
  | none => (s, ApiResp.notFound)
  | some (reqs, u) =>
    ({ s with requests := reqs, users := bump s.users u.telegram_id u.amount },
      ApiResp.success)

/-- Outcome of the gateway `transfer` call during approval. -/
inductive TransferOutcome
  | success
  | dupSpendIdError
  | otherError
deriving DecidableEq, Repr

/-- The approve route `router.post('/withdrawals/:id/approve')`, sequential
execution (a single
request at a time; the interleaved version for the race claims is
`ApproveM.step` below).  The transfer goes through `withdrawToTrainer`, so
the gateway receives a `spend_id` generated from the current time — not the
`spendId` local variable the route passes as the ignored fifth argument. -/
def wdApprove (s : St) (id : String) (reviewer : ℤ) (now : ℤ)
    (t : TransferOutcome) : St × ApiResp :=
  match findWR s.requests id with
  | none => (s, ApiResp.notFound)
  | some request =>
    if request.status = WStatus.APPROVED ∨ request.status = WStatus.REJECTED then
      (s, ApiResp.badRequest)
    else
      let spendId := request.spend_id.getD (genSpend request.telegram_id now)
      let (reqs1, request1) :=
        if request.status = WStatus.PENDING then
          (updateOneWR (fun r => decide (r.id = id) && decide (r.status = WStatus.PENDING))
            (fun r => { r with status := WStatus.PROCESSING,
                               spend_id := some spendId,
                               updated_at := some now })
            s.requests,
           { request with status := WStatus.PROCESSING,
                          spend_id := some spendId,
                          updated_at := some now })
        else if request.spend_id = none then
          (updateOneWR (fun r => decide (r.id = id) && decide (r.status = WStatus.PROCESSING))
            (fun r => { r with spend_id := some spendId, updated_at := some now })
            s.requests,
           request)
        else (s.requests, request)
      let feePercent := getWithdrawalFeePercent s.feePercentSetting
      let feeAmount := roundMoney (request1.amount * feePercent / 100)
      let netAmount := roundMoney (request1.amount - feeAmount)
      match t with
      | TransferOutcome.otherError =>
        let reverted := updateOneWR
          (fun r => decide (r.id = id) && decide (r.status = WStatus.PROCESSING))
          (fun r => { r with status := WStatus.PENDING, updated_at := some now })
          reqs1
        ({ s with requests := reverted }, ApiResp.serverError)
      | _ =>
        let sent :=
          if t = TransferOutcome.success then
            s.transfers ++ [withdrawToTrainer request1.telegram_id "USDT" netAmount now]
          else s.transfers
        let s1 := { s with requests := reqs1, transfers := sent }
        let reqs2 := updateOneWR
          (fun r => decide (r.id = id) && decide (r.status = WStatus.PROCESSING))
          (fun r => { r with status := WStatus.APPROVED,
                             reviewed_by := some reviewer,
                             fee_percent := some feePercent,
                             fee_amount := some feeAmount,
                             net_amount := some netAmount,
                             spend_id := some spendId,
                             updated_at := some now })
          s1.requests
        match findWR reqs2 id with
        | none => ({ s1 with requests := reqs2 }, ApiResp.serverError)
        | some updated =>
          if updated.status ≠ WStatus.APPROVED then
            ({ s1 with requests := reqs2 }, ApiResp.serverError)
          else
            let users' :=
              if 0 < feeAmount ∧ s1.admin ≠ (0 : ℤ) then bump s1.users s1.admin feeAmount
              else s1.users
            ({ s1 with requests := reqs2, users := users' }, ApiResp.success)

/-! ## The periodic sweep (server start-up file) -/

def WITHDRAWAL_PROCESSING_TIMEOUT_MS : ℤ := 10 * 60 * 1000

/-- The `updateMany` filter: `status = PROCESSING` and `updated_at < cutoff`
(or no `updated_at` and `created_at < cutoff`), `cutoff = now - timeout`. -/
def staleProcessing (now : ℤ) (r : WR) : Bool :=
  decide (r.status = WStatus.PROCESSING) &&
    (match r.updated_at with
     | some t => decide (t < now - WITHDRAWAL_PROCESSING_TIMEOUT_MS)
     | none => decide (r.created_at < now - WITHDRAWAL_PROCESSING_TIMEOUT_MS))

/-- What the sweep's `updateMany` does to a single document. -/
def sweepOne (now : ℤ) (r : WR) : WR :=
  if staleProcessing now r then
    { r with status := WStatus.PENDING, updated_at := some now }
  else r

/-- One run of the `setInterval` sweep body. -/
def sweepWithdrawals (now : ℤ) (reqs : List WR) : List WR :=
  reqs.map (sweepOne now)

namespace ApproveM

/-- The fee `roundMoney(request.amount * 3 / 100)` with the default percent. -/
def feeOf (amount : ℚ) : ℚ := roundMoney (amount * 3 / 100)

def netOf (amount : ℚ) : ℚ := roundMoney (amount - feeOf amount)

/-- Shared state: the request document, the count of gateway transfer
invocations, the count of fee credits to the admin account, and a clock
supplying `Date.now()`. -/
structure Sh where
  req : WR
  adminOk : Bool
  transfers : ℕ := 0
  feeCredits : ℕ := 0
  time : ℤ := 0
deriving DecidableEq, Repr

inductive APc
  | load
  | branch
  | xfer
  | fin
  | readout
  | halt
deriving DecidableEq, Repr

/-- One handler task: program counter, the snapshot read by `findOne`, the
local `spendId` variable, the reviewer id, and the response once sent. -/
structure Th where
  pc : APc
  rev : ℤ
  snap : WR
  spendId : String := ""
  resp : Option ApiResp := none
deriving DecidableEq, Repr

/-- The document written by the `PROCESSING → APPROVED` update. -/
def approvedDoc (r : WR) (reviewer : ℤ) (σ : String) (now : ℤ) : WR :=
  { r with status := WStatus.APPROVED, reviewed_by := some reviewer,
           fee_percent := some 3, fee_amount := some (feeOf r.amount),
           net_amount := some (netOf r.amount), spend_id := some σ,
           updated_at := some now }

/-- One atomic operation of one handler task. -/
def thStep (sh : Sh) (th : Th) : Sh × Th :=
  match th.pc with
  | APc.load =>
    ({ sh with time := sh.time + 1 }, { th with snap := sh.req, pc := APc.branch })
  | APc.branch =>
    let sh' := { sh with time := sh.time + 1 }
    if th.snap.status = WStatus.APPROVED ∨ th.snap.status = WStatus.REJECTED then
      (sh', { th with resp := some ApiResp.badRequest, pc := APc.halt })
    else
      let σ := th.snap.spend_id.getD (genSpend th.snap.telegram_id sh.time)
      if th.snap.status = WStatus.PENDING then
        if sh.req.status = WStatus.PENDING then
          ({ sh' with req := { sh.req with status := WStatus.PROCESSING,
                                           spend_id := some σ,
                                           updated_at := some sh.time } },
            { th with spendId := σ, pc := APc.xfer })
        else
          (sh', { th with resp := some ApiResp.conflict, pc := APc.halt })
      else
        if th.snap.spend_id = none then
          (if sh.req.status = WStatus.PROCESSING then
            { sh' with req := { sh.req with spend_id := some σ,
                                            updated_at := some sh.time } }
           else sh',
            { th with spendId := σ, pc := APc.xfer })
        else
          (sh', { th with spendId := σ, pc := APc.xfer })
  | APc.xfer =>
    ({ sh with time := sh.time + 1, transfers := sh.transfers + 1 },
      { th with pc := APc.fin })
  | APc.fin =>
    if sh.req.status = WStatus.PROCESSING then
      ({ sh with time := sh.time + 1,
                 req := approvedDoc sh.req th.rev th.spendId sh.time },
        { th with pc := APc.readout })
    else
      ({ sh with time := sh.time + 1 }, { th with pc := APc.readout })
  | APc.readout =>
    if sh.req.status = WStatus.APPROVED then
      ({ sh with time := sh.time + 1,
                 feeCredits := sh.feeCredits +
                   (if 0 < feeOf th.snap.amount ∧ sh.adminOk then 1 else 0) },
        { th with resp := some ApiResp.success, pc := APc.halt })
    else
      ({ sh with time := sh.time + 1 },
        { th with resp := some ApiResp.serverError, pc := APc.halt })
  | APc.halt => (sh, th)

/-- A configuration: the shared store plus the two reviewer tasks. -/
structure Cfg where
  sh : Sh
  a : Th
  b : Th
deriving DecidableEq, Repr

/-- Let the chosen task (`true` = a, `false` = b) perform its next atomic
operation. -/
def step (c : Cfg) (who : Bool) : Cfg :=
  if who then
    let (sh, a) := thStep c.sh c.a
    { c with sh := sh, a := a }
  else
    let (sh, b) := thStep c.sh c.b
    { c with sh := sh, b := b }

/-- Run a schedule. -/
def run (c : Cfg) : List Bool → Cfg
  | [] => c
  | w :: ws => run (step c w) ws

/-- Both reviewers start at the `findOne` load of the same request. -/
def initCfg (rq : WR) (adminOk : Bool) (revA revB : ℤ) : Cfg :=
  { sh := { req := rq, adminOk := adminOk },
    a := { pc := APc.load, rev := revA, snap := rq },
    b := { pc := APc.load, rev := revB, snap := rq } }

end ApproveM

/-- The deposit scenario of the spec: invoice `inv_1`, account 42,
amount 10 USDT. -/
def c1State : St :=
  { pending := [("inv_1", { type := PayType.deposit, userId := 42 })],
    users := [(42, 0)], admin := 1 }

def c1Update : WebhookUpdate :=
  { update_type := "invoice_paid", invoice_id := "inv_1", amount := 10,
    asset := "USDT" }

def c1Pending : PendingInv := { type := PayType.deposit, userId := 42 }

/-- A deposit paid before a process restart: the map is empty, yet the event
is genuine. -/
def c10State : St := { users := [(42, 5)], admin := 1 }

/-! ## Normal form of a sequential approval of a `PENDING` request -/

/-- The document a successful approval writes. -/
def approvedWR (req : WR) (reviewer now : ℤ) (feePercent : ℚ) : WR :=
  { req with
      status := WStatus.APPROVED,
      reviewed_by := some reviewer,
      fee_percent := some feePercent,
      fee_amount := some (roundMoney (req.amount * feePercent / 100)),
      net_amount := some (roundMoney (req.amount - roundMoney (req.amount * feePercent / 100))),
      spend_id := some (req.spend_id.getD (genSpend req.telegram_id now)),
      updated_at := some now }

/-- The approve scenario of the spec: amount `100.00`, fee percent 3. -/
def c3State : St :=
  { users := [(9, 0), (1, 0)], admin := 1,
    requests := [{ id := "w1", telegram_id := 9, amount := (10000 : ℚ) / 100,
                   status := WStatus.PENDING }] }

def c3Req : WR :=
  { id := "w1", telegram_id := 9, amount := (10000 : ℚ) / 100,
    status := WStatus.PENDING }

/-- A request whose amount `1/64 = 0.015625` is not a whole number of cents:
the code records fee `0.00` and net `0.02`, so `fee + net = 0.02 ≠ amount`.
This refutes the claim read over all positive finite amounts. -/
def c3BadState : St :=
  { users := [(9, 0), (1, 0)], admin := 1,
    requests := [{ id := "w1", telegram_id := 9, amount := 1 / 64,
                   status := WStatus.PENDING }] }

/-- The reject scenario of the spec: balance 0 after escrowing 50, reason
"insufficient docs", refund restores 50. -/
def c6State : St :=
  { users := [(9, 0), (1, 0)], admin := 1,
    requests := [{ id := "w1", telegram_id := 9, amount := 50,
                   status := WStatus.PENDING }] }

def c6Req : WR :=
  { id := "w1", telegram_id := 9, amount := 50, status := WStatus.PENDING }

def c5State : St := { users := [(9, 50), (1, 0)], admin := 1 }

/-! ## C2 — the gateway never receives the stored stable spend id -/

/-- A `PENDING` request that already carries a stable spend id (as after a
failed earlier attempt reverted it to `PENDING`). -/
def c2State : St :=
  { users := [(9, 0), (1, 0)], admin := 1,
    requests := [{ id := "w1", telegram_id := 9, amount := (10000 : ℚ) / 100,
                   status := WStatus.PENDING, spend_id := some "withdraw_9_777" }] }

/-- The balance effect of a new purchase: credit the author with the rounded
90% share and, when positive and an admin account is configured, credit the
admin with the rounded remainder. -/
def purchaseUsers (users : List (ℤ × ℚ)) (buyer author admin : ℤ)
    (amount : ℚ) : List (ℤ × ℚ) :=
  let u1 := bump (ensureUser users buyer) author (roundMoney (amount * (9 / 10)))
  if 0 < roundMoney (amount - roundMoney (amount * (9 / 10))) ∧ admin ≠ (0 : ℤ) then
    bump u1 admin (roundMoney (amount - roundMoney (amount * (9 / 10))))
  else u1

/-- The purchase-split scenario of the spec: program `p1` priced 20 by
author 7, platform account 1, buyer 5, paid amount 20. -/
def c4State : St :=
  { pending := [("inv_2", { type := PayType.purchase, userId := 5,
                            programId := some "p1", trainerId := some 7 })],
    users := [(7, 0), (1, 0), (5, 0)],
    programs := [("p1", { authorId := 7, price := 20 })], admin := 1 }

def c4Update : WebhookUpdate :=
  { update_type := "invoice_paid", invoice_id := "inv_2", amount := 20,
    asset := "USDT" }

def c4Pending : PendingInv :=
  { type := PayType.purchase, userId := 5, programId := some "p1",
    trainerId := some 7 }

def c4Prog : Program := { authorId := 7, price := 20 }

/-- C4 counterexample: with paid amount `0.01` against program `p1`, the
author's balance is credited `roundMoney(0.9 * 0.01) = 0.01`, which is not
90% of the paid amount (`0.009`); the platform remainder credit is `0`, not
`0.001`. -/
def c4BadUpdate : WebhookUpdate :=
  { update_type := "invoice_paid", invoice_id := "inv_2", amount := 1 / 100,
    asset := "USDT" }

/-! ## C9 — no negative balances from successful operations -/

/-- All stored balances are nonnegative. -/
def NonNegBal (l : List (ℤ × ℚ)) : Prop := ∀ q ∈ l, 0 ≤ q.2

/-- The successful operations quantified over by the invariant: webhook
deposits, webhook purchases and withdrawal-request creations. -/
inductive Op
  | deposit (uid : ℤ) (amount : ℚ)
  | purchase (buyer : ℤ) (programId : Option String) (amount : ℚ)
      (trainerId : Option ℤ)
  | wdCreate (caller : ℤ) (role : Role) (amount : ℚ) (reqId : String)
      (now : ℤ) (persistOk : Bool)

def applyOp (s : St) : Op → St
  | Op.deposit uid amount => applyDeposit s uid amount
  | Op.purchase buyer programId amount trainerId =>
    (applyPurchase s buyer programId amount trainerId).1
  | Op.wdCreate caller role amount reqId now persistOk =>
    (wdCreate s caller role amount reqId now persistOk).1

/-- Deposits carry nonnegative paid amounts (the gateway only reports paid
invoices); the other operations protect themselves. -/
def opOk : Op → Prop
  | Op.deposit _ amount => 0 ≤ amount
  | _ => True

namespace ApproveM

/-- The document written by the `PENDING → PROCESSING` compare-and-swap. -/
def claimedDoc (rq : WR) (σ : String) (tc : ℤ) : WR :=
  { rq with status := WStatus.PROCESSING, spend_id := some σ, updated_at := some tc }

/-- Shared store before any claim. -/
def sh1 (rq : WR) (t : ℤ) : Sh :=
  { req := rq, adminOk := true, transfers := 0, feeCredits := 0, time := t }

/-- Shared store after the winner's claim. -/
def sh2 (rq : WR) (σ : String) (t tc : ℤ) : Sh :=
  { req := claimedDoc rq σ tc, adminOk := true, transfers := 0, feeCredits := 0,
    time := t }

/-- Shared store after the winner's transfer. -/
def sh3 (rq : WR) (σ : String) (t tc : ℤ) : Sh :=
  { req := claimedDoc rq σ tc, adminOk := true, transfers := 1, feeCredits := 0,
    time := t }

/-- Shared store after the winner's `PROCESSING → APPROVED` update. -/
def sh4 (rq : WR) (σ : String) (rev t tc tf : ℤ) : Sh :=
  { req := approvedDoc (claimedDoc rq σ tc) rev σ tf, adminOk := true,
    transfers := 1, feeCredits := 0, time := t }

/-- Shared store after the winner's readout, fee credit and response. -/
def sh5 (rq : WR) (σ : String) (rev t tc tf : ℤ) : Sh :=
  { req := approvedDoc (claimedDoc rq σ tc) rev σ tf, adminOk := true,
    transfers := 1, feeCredits := 1, time := t }

/-- A task that has loaded the still-`PENDING` request. -/
def brancher (rq : WR) (rev : ℤ) : Th :=
  { pc := APc.branch, rev := rev, snap := rq }

/-- A task that lost the compare-and-swap: conflict response, done. -/
def loserOut (rq : WR) (rev : ℤ) : Th :=
  { pc := APc.halt, rev := rev, snap := rq, resp := some ApiResp.conflict }

def winner2 (rq : WR) (rev : ℤ) (σ : String) : Th :=
  { pc := APc.xfer, rev := rev, snap := rq, spendId := σ }

def winner3 (rq : WR) (rev : ℤ) (σ : String) : Th :=
  { pc := APc.fin, rev := rev, snap := rq, spendId := σ }

def winner4 (rq : WR) (rev : ℤ) (σ : String) : Th :=
  { pc := APc.readout, rev := rev, snap := rq, spendId := σ }

def winner5 (rq : WR) (rev : ℤ) (σ : String) : Th :=
  { pc := APc.halt, rev := rev, snap := rq, spendId := σ,
    resp := some ApiResp.success }

/-- Reachable configurations of two approvals that both loaded the request
while it was `PENDING`: either no one has claimed yet, or one task (the
winner, left or right) is at some phase of the approval pipeline while the
other is still at its branch step or already holds the conflict response. -/
inductive Inv (rq : WR) (ra rb : ℤ) : Cfg → Prop
  | phase1 (t : ℤ) : Inv rq ra rb ⟨sh1 rq t, brancher rq ra, brancher rq rb⟩
  | a2 (σ : String) (t tc : ℤ) (l : Th)
      (hl : l = brancher rq rb ∨ l = loserOut rq rb) :
      Inv rq ra rb ⟨sh2 rq σ t tc, winner2 rq ra σ, l⟩
  | a3 (σ : String) (t tc : ℤ) (l : Th)
      (hl : l = brancher rq rb ∨ l = loserOut rq rb) :
      Inv rq ra rb ⟨sh3 rq σ t tc, winner3 rq ra σ, l⟩
  | a4 (σ : String) (t tc tf : ℤ) (l : Th)
      (hl : l = brancher rq rb ∨ l = loserOut rq rb) :
      Inv rq ra rb ⟨sh4 rq σ ra t tc tf, winner4 rq ra σ, l⟩
  | a5 (σ : String) (t tc tf : ℤ) (l : Th)
      (hl : l = brancher rq rb ∨ l = loserOut rq rb) :
      Inv rq ra rb ⟨sh5 rq σ ra t tc tf, winner5 rq ra σ, l⟩
  | b2 (σ : String) (t tc : ℤ) (l : Th)
      (hl : l = brancher rq ra ∨ l = loserOut rq ra) :
      Inv rq ra rb ⟨sh2 rq σ t tc, l, winner2 rq rb σ⟩
  | b3 (σ : String) (t tc : ℤ) (l : Th)
      (hl : l = brancher rq ra ∨ l = loserOut rq ra) :
      Inv rq ra rb ⟨sh3 rq σ t tc, l, winner3 rq rb σ⟩
  | b4 (σ : String) (t tc tf : ℤ) (l : Th)
      (hl : l = brancher rq ra ∨ l = loserOut rq ra) :
      Inv rq ra rb ⟨sh4 rq σ rb t tc tf, l, winner4 rq rb σ⟩
  | b5 (σ : String) (t tc tf : ℤ) (l : Th)
      (hl : l = brancher rq ra ∨ l = loserOut rq ra) :
      Inv rq ra rb ⟨sh5 rq σ rb t tc tf, l, winner5 rq rb σ⟩

end ApproveM

/-- The request of the race scenario: `PENDING`, amount 100, no spend id. -/
def c7Req : WR := { id := "w1", telegram_id := 7, amount := 100,
                    status := WStatus.PENDING }

/-- The interleaving that refutes C7 as stated: reviewer A loads and claims
`PENDING → PROCESSING`; reviewer B then loads, sees `PROCESSING`, joins the
approval, transfers and finishes; A resumes, transfers again, re-reads
`APPROVED` and also credits the fee and reports success. -/
def c7BadRun : ApproveM.Cfg :=
  ApproveM.run (ApproveM.initCfg c7Req true 11 12)
    [true, true, false, false, false, false, false, true, true, true]

/-! ## Association-list lemmas -/

theorem alookup_aerase {α : Type} (l : List (String × α)) (k : String) :
    alookup (aerase l k) k = none := by
  induction l with
  | nil => rfl
  | cons kv t ih =>
    by_cases h : kv.1 = k
    · simpa [aerase, h] using ih
    · simpa [aerase, alookup, h] using ih

theorem alookup_append_left {κ α : Type} [DecidableEq κ]
    {l₁ : List (κ × α)} (l₂ : List (κ × α)) {k : κ} {v : α}
    (h : alookup l₁ k = some v) : alookup (l₁ ++ l₂) k = some v := by
  induction l₁ with
  | nil => simp [alookup] at h
  | cons kv t ih =>
    obtain ⟨i, c⟩ := kv
    by_cases hk : i = k
    · subst hk
      simp only [alookup, if_pos rfl] at h ⊢
      exact h
    · simp only [alookup, if_neg hk] at h
      simp only [List.cons_append, alookup, if_neg hk]
      exact ih h

theorem alookup_append_right {κ α : Type} [DecidableEq κ]
    {l₁ : List (κ × α)} (l₂ : List (κ × α)) {k : κ}
    (h : alookup l₁ k = none) : alookup (l₁ ++ l₂) k = alookup l₂ k := by
  induction l₁ with
  | nil => rfl
  | cons kv t ih =>
    obtain ⟨i, c⟩ := kv
    by_cases hk : i = k
    · simp [alookup, hk] at h
    · simp only [alookup, if_neg hk] at h
      simp only [List.cons_append, alookup, if_neg hk]
      exact ih h

theorem alookup_bump_self {κ : Type} [DecidableEq κ]
    {l : List (κ × ℚ)} {k : κ} {b : ℚ} (a : ℚ)
    (h : alookup l k = some b) : alookup (bump l k a) k = some (b + a) := by
  induction l with
  | nil => simp [alookup] at h
  | cons kv t ih =>
    obtain ⟨i, c⟩ := kv
    by_cases hk : i = k
    · subst hk
      simp [alookup] at h
      subst h
      simp [bump, alookup]
    · simp only [alookup, if_neg hk] at h
      simpa [bump, alookup, if_neg hk, hk] using ih h

theorem alookup_bump_other {κ : Type} [DecidableEq κ]
    (l : List (κ × ℚ)) (k j : κ) (a : ℚ) (hjk : j ≠ k) :
    alookup (bump l k a) j = alookup l j := by
  induction l with
  | nil => rfl
  | cons kv t ih =>
    obtain ⟨i, c⟩ := kv
    by_cases hk : i = k
    · subst hk
      have hij : ¬ i = j := fun hh => hjk (hh ▸ rfl)
      simp [bump, alookup, hij]
    · by_cases hij : i = j
      · subst hij
        simp [bump, alookup, hk]
      · simpa [bump, alookup, hk, hij] using ih

theorem bump_of_none {κ : Type} [DecidableEq κ]
    {l : List (κ × ℚ)} {k : κ} (a : ℚ)
    (h : alookup l k = none) : bump l k a = l := by
  induction l with
  | nil => rfl
  | cons kv t ih =>
    obtain ⟨i, c⟩ := kv
    by_cases hk : i = k
    · simp [alookup, hk] at h
    · simp only [alookup, if_neg hk] at h
      simp [bump, hk, ih h]

theorem alookup_ensure_self (l : List (ℤ × ℚ)) (k : ℤ) :
    alookup (ensureUser l k) k = some ((alookup l k).getD 0) := by
  unfold ensureUser
  cases h : alookup l k with
  | none =>
    rw [alookup_append_right _ h]
    simp [alookup]
  | some b => simp [h]

theorem alookup_ensure_other (l : List (ℤ × ℚ)) (k j : ℤ) (hjk : j ≠ k) :
    alookup (ensureUser l k) j = alookup l j := by
  unfold ensureUser
  cases h : alookup l k with
  | none =>
    cases hj : alookup l j with
    | none =>
      rw [alookup_append_right _ hj]
      simp [alookup, Ne.symm hjk]
    | some v => exact alookup_append_left _ hj
  | some b => rfl

theorem alookup_bump_ensure (l : List (ℤ × ℚ)) (k : ℤ) (a : ℚ) :
    alookup (bump (ensureUser l k) k a) k = some ((alookup l k).getD 0 + a) :=
  alookup_bump_self a (alookup_ensure_self l k)

theorem alookup_incPurchaseCount_self {l : List (String × Program)}
    {pid : String} {prog : Program} (h : alookup l pid = some prog) :
    alookup (incPurchaseCount l pid) pid =
      some { prog with purchase_count := prog.purchase_count + 1 } := by
  induction l with
  | nil => simp [alookup] at h
  | cons kv t ih =>
    obtain ⟨i, c⟩ := kv
    by_cases hk : i = pid
    · subst hk
      simp [alookup] at h
      subst h
      simp [incPurchaseCount, alookup]
    · simp only [alookup, if_neg hk] at h
      simpa [incPurchaseCount, alookup, hk] using ih h

/-! ## Lemmas about the spec-modelled conditional debit -/

theorem debit_of_lt {l : List (ℤ × ℚ)} {k : ℤ} {b : ℚ} {a : ℚ}
    (h : alookup l k = some b) (hlt : b < a) :
    debitUserBalanceIfEnough l k a = (l, false) := by
  induction l with
  | nil => simp [alookup] at h
  | cons kv t ih =>
    obtain ⟨i, c⟩ := kv
    by_cases hk : i = k
    · subst hk
      simp [alookup] at h
      subst h
      simp [debitUserBalanceIfEnough, not_le.mpr hlt]
    · simp only [alookup, if_neg hk] at h
      simp [debitUserBalanceIfEnough, hk, ih h]

theorem debit_of_le {l : List (ℤ × ℚ)} {k : ℤ} {b : ℚ} {a : ℚ}
    (h : alookup l k = some b) (hle : a ≤ b) :
    (debitUserBalanceIfEnough l k a).2 = true ∧
    alookup (debitUserBalanceIfEnough l k a).1 k = some (b - a) ∧
    ∀ j, j ≠ k → alookup (debitUserBalanceIfEnough l k a).1 j = alookup l j := by
  induction l with
  | nil => simp [alookup] at h
  | cons kv t ih =>
    obtain ⟨i, c⟩ := kv
    by_cases hk : i = k
    · subst hk
      simp [alookup] at h
      subst h
      refine ⟨by simp [debitUserBalanceIfEnough, hle], ?_, ?_⟩
      · simp [debitUserBalanceIfEnough, hle, alookup]
      · intro j hj
        have hij : ¬ i = j := fun hh => hj (hh ▸ rfl)
        simp [debitUserBalanceIfEnough, hle, alookup, hij]
    · simp only [alookup, if_neg hk] at h
      obtain ⟨h1, h2, h3⟩ := ih h
      refine ⟨by simpa [debitUserBalanceIfEnough, hk] using h1, ?_, ?_⟩
      · simpa [debitUserBalanceIfEnough, hk, alookup, hk] using h2
      · intro j hj
        by_cases hij : i = j
        · subst hij
          simp [debitUserBalanceIfEnough, hk, alookup]
        · simpa [debitUserBalanceIfEnough, hk, alookup, hij] using h3 j hj

/-! ## The webhook as a state transformer on fresh deposit events -/

/-- Normal form of one delivery of a fresh deposit webhook. -/
theorem webhookStep_fresh_deposit
    (s0 : St) (u : WebhookUpdate) (p : PendingInv)
    (hu : u.update_type = "invoice_paid")
    (hp : alookup s0.pending u.invoice_id = some p)
    (htype : p.type = PayType.deposit)
    (hinv : alookup s0.invoices u.invoice_id = none) :
    webhookStep s0 u =
      ({ s0 with
          pending := aerase s0.pending u.invoice_id,
          users := bump (ensureUser s0.users p.userId) p.userId u.amount,
          invoices := setInvoice
            (s0.invoices ++
              [(u.invoice_id,
                { type := p.type, status := InvStatus.PROCESSING,
                  telegram_id := p.userId, amount := u.amount, asset := u.asset })])
            u.invoice_id InvStatus.DONE "" },
        ApiResp.ok) := by
  simp [webhookStep, handleCryptoWebhook, dispatchPayment, applyDeposit,
    hu, hp, htype, hinv]

/-- A state the webhook maps to itself stays fixed under any number of
re-deliveries. -/
theorem iterWebhook_fixed {s : St} {u : WebhookUpdate} {r : ApiResp}
    (h : webhookStep s u = (s, r)) : ∀ m, iterWebhook m s u = s := by
  intro m
  induction m with
  | zero => rfl
  | succ m ih => simpa [iterWebhook, h] using ih

/-- C1.  For a fresh paid-invoice deposit event (pending entry present,
invoice id never recorded), the first delivery is acknowledged `{ok: true}`
and credits the target account by the paid amount; the state after any
`n ≥ 1` identical deliveries equals the state after the first, and each
replay leaves the state unchanged and is acknowledged `{ok: true}`. -/
theorem c1_deposit_webhook_idempotent
    (s0 : St) (u : WebhookUpdate) (p : PendingInv)
    (hu : u.update_type = "invoice_paid")
    (hp : alookup s0.pending u.invoice_id = some p)
    (htype : p.type = PayType.deposit)
    (hinv : alookup s0.invoices u.invoice_id = none)
    (n : ℕ) (hn : 1 ≤ n) :
    (webhookStep s0 u).2 = ApiResp.ok ∧
    alookup (webhookStep s0 u).1.users p.userId =
      some ((alookup s0.users p.userId).getD 0 + u.amount) ∧
    webhookStep (webhookStep s0 u).1 u = ((webhookStep s0 u).1, ApiResp.ok) ∧
    iterWebhook n s0 u = (webhookStep s0 u).1 := by
  have hnf := webhookStep_fresh_deposit s0 u p hu hp htype hinv
  have hreplay : webhookStep (webhookStep s0 u).1 u = ((webhookStep s0 u).1, ApiResp.ok) := by
    rw [hnf]
    simp [webhookStep, handleCryptoWebhook, hu, alookup_aerase]
  refine ⟨by rw [hnf], ?_, hreplay, ?_⟩
  · rw [hnf]
    exact alookup_bump_ensure _ _ _
  · obtain ⟨m, rfl⟩ : ∃ m, n = m + 1 :=
      ⟨n - 1, (Nat.succ_pred_eq_of_pos hn).symm⟩
    show iterWebhook (m + 1) s0 u = _
    rw [iterWebhook]
    exact iterWebhook_fixed hreplay m

theorem c1_deposit_webhook_idempotent_witness :
    (webhookStep c1State c1Update).2 = ApiResp.ok ∧
    alookup (webhookStep c1State c1Update).1.users c1Pending.userId =
      some ((alookup c1State.users c1Pending.userId).getD 0 + c1Update.amount) ∧
    webhookStep (webhookStep c1State c1Update).1 c1Update =
      ((webhookStep c1State c1Update).1, ApiResp.ok) ∧
    iterWebhook 3 c1State c1Update = (webhookStep c1State c1Update).1 :=
  c1_deposit_webhook_idempotent c1State c1Update c1Pending rfl (by decide)
    rfl (by decide) 3 (by decide)

/-- C10.  A correctly signed paid-invoice event whose invoice id is not in
the in-process `pendingInvoices` map is acknowledged `{ok: true}` with no
state change at all: no balance moves and no invoice record is created. -/
theorem c10_unknown_invoice_dropped
    (s0 : St) (u : WebhookUpdate)
    (hu : u.update_type = "invoice_paid")
    (hp : alookup s0.pending u.invoice_id = none) :
    webhookStep s0 u = (s0, ApiResp.ok) := by
  simp [webhookStep, handleCryptoWebhook, hu, hp]

theorem c10_unknown_invoice_dropped_witness :
    webhookStep c10State c1Update = (c10State, ApiResp.ok) :=
  c10_unknown_invoice_dropped c10State c1Update rfl (by decide)

/-! ## Structure lemmas for the withdrawal collection -/

theorem findWR_split {l : List WR} {rid : String} {req : WR}
    (h : findWR l rid = some req) :
    ∃ pre post, l = pre ++ req :: post ∧ (∀ x ∈ pre, x.id ≠ rid) ∧ req.id = rid := by
  induction l with
  | nil => simp [findWR] at h
  | cons r t ih =>
    by_cases hr : r.id = rid
    · simp only [findWR, if_pos hr, Option.some.injEq] at h
      subst h
      exact ⟨[], t, rfl, by simp, hr⟩
    · simp only [findWR, if_neg hr] at h
      obtain ⟨pre, post, hl, hpre, hid⟩ := ih h
      refine ⟨r :: pre, post, by rw [hl]; rfl, ?_, hid⟩
      intro x hx
      rcases List.mem_cons.mp hx with hx | hx
      · exact hx ▸ hr
      · exact hpre x hx

theorem findWR_append {rid : String} {pre : List WR}
    (hpre : ∀ x ∈ pre, x.id ≠ rid) {r : WR} {post : List WR}
    (hr : r.id = rid) :
    findWR (pre ++ r :: post) rid = some r := by
  induction pre with
  | nil => simp [findWR, hr]
  | cons x t ih =>
    have hx : x.id ≠ rid := hpre x (List.mem_cons_self x t)
    simp only [List.cons_append, findWR, if_neg hx]
    exact ih (fun y hy => hpre y (List.mem_cons_of_mem x hy))

theorem findOneAndUpdate_split {q : WR → Bool} {pre : List WR}
    (hpre : ∀ x ∈ pre, q x = false) {f : WR → WR} {r : WR} {post : List WR}
    (hr : q r = true) :
    findOneAndUpdate q f (pre ++ r :: post) = some (pre ++ f r :: post, f r) := by
  induction pre with
  | nil => simp [findOneAndUpdate, hr]
  | cons x t ih =>
    have hx : q x = false := hpre x (List.mem_cons_self x t)
    simp only [List.cons_append, findOneAndUpdate, hx, Bool.false_eq_true, if_false,
      List.append_eq]
    rw [ih (fun y hy => hpre y (List.mem_cons_of_mem x hy))]
    rfl

theorem findOneAndUpdate_none {q : WR → Bool} (f : WR → WR) {l : List WR}
    (h : ∀ r ∈ l, q r = false) : findOneAndUpdate q f l = none := by
  induction l with
  | nil => rfl
  | cons r t ih =>
    have hr : q r = false := h r (List.mem_cons_self r t)
    simp only [findOneAndUpdate, hr, Bool.false_eq_true, if_false]
    rw [ih (fun y hy => h y (List.mem_cons_of_mem r hy))]
    rfl

/-! ## Arithmetic facts about `roundMoney` -/

theorem jsRound_eq_floor (x : ℚ) : jsRound x = ⌊x + 1 / 2⌋ := by
  rw [jsRound, Rat.floor_def', ← Rat.floor_def]

/-- Rounding a whole number of cents is the identity: the `Number.EPSILON`
nudge is far below half a cent. -/
theorem roundMoney_cents (n : ℤ) : roundMoney ((n : ℚ) / 100) = (n : ℚ) / 100 := by
  have harg : ((n : ℚ) / 100 + numberEPSILON) * 100 + 1 / 2 =
      (n : ℚ) + (100 * numberEPSILON + 1 / 2) := by ring
  have hsmall : ⌊(100 * numberEPSILON + 1 / 2 : ℚ)⌋ = 0 := by
    rw [Int.floor_eq_zero_iff]
    constructor
    · rw [numberEPSILON]; norm_num
    · rw [numberEPSILON]; norm_num
  have hjs : jsRound (((n : ℚ) / 100 + numberEPSILON) * 100) = n := by
    rw [jsRound_eq_floor, harg, Int.floor_int_add, hsmall, add_zero]
  rw [roundMoney, hjs]

theorem roundMoney_nonneg {v : ℚ} (hv : 0 ≤ v) : 0 ≤ roundMoney v := by
  rw [roundMoney, jsRound_eq_floor]
  have harg : (0 : ℚ) ≤ (v + numberEPSILON) * 100 + 1 / 2 := by
    have heps : (0 : ℚ) ≤ numberEPSILON := by rw [numberEPSILON]; norm_num
    nlinarith
  have : (0 : ℤ) ≤ ⌊(v + numberEPSILON) * 100 + 1 / 2⌋ := Int.floor_nonneg.mpr harg
  positivity

/-- Whole cents: `roundMoney` always yields a whole number of cents. -/
theorem roundMoney_eq_cents (v : ℚ) :
    roundMoney v = ((jsRound ((v + numberEPSILON) * 100) : ℤ) : ℚ) / 100 := rfl

/-- Fee and net sum back to any whole-cent amount: the net rounding is the
identity because `amount - fee` is again a whole number of cents. -/
theorem fee_net_conservation (k : ℤ) (p : ℚ) :
    roundMoney ((k : ℚ) / 100 * p / 100) +
      roundMoney ((k : ℚ) / 100 - roundMoney ((k : ℚ) / 100 * p / 100)) =
    (k : ℚ) / 100 := by
  set m : ℤ := jsRound (((k : ℚ) / 100 * p / 100 + numberEPSILON) * 100) with hm
  have hfee : roundMoney ((k : ℚ) / 100 * p / 100) = (m : ℚ) / 100 := rfl
  have hsub : (k : ℚ) / 100 - (m : ℚ) / 100 = ((k - m : ℤ) : ℚ) / 100 := by
    push_cast
    ring
  rw [hfee, hsub, roundMoney_cents]
  push_cast
  ring

theorem wdApprove_pending
    (s : St) (rid : String) (reviewer now : ℤ) (t : TransferOutcome)
    {pre post : List WR} {req : WR}
    (hsplit : s.requests = pre ++ req :: post)
    (hpre : ∀ x ∈ pre, x.id ≠ rid)
    (hid : req.id = rid)
    (hst : req.status = WStatus.PENDING)
    (ht : t ≠ TransferOutcome.otherError) :
    (wdApprove s rid reviewer now t).2 = ApiResp.success ∧
    (wdApprove s rid reviewer now t).1.requests =
      pre ++ approvedWR req reviewer now (getWithdrawalFeePercent s.feePercentSetting) :: post ∧
    (wdApprove s rid reviewer now t).1.users =
      (if 0 < roundMoney (req.amount * getWithdrawalFeePercent s.feePercentSetting / 100) ∧
          s.admin ≠ (0 : ℤ) then
        bump s.users s.admin
          (roundMoney (req.amount * getWithdrawalFeePercent s.feePercentSetting / 100))
       else s.users) ∧
    (wdApprove s rid reviewer now t).1.transfers =
      (if t = TransferOutcome.success then
        s.transfers ++
          [withdrawToTrainer req.telegram_id "USDT"
            (roundMoney (req.amount - roundMoney
              (req.amount * getWithdrawalFeePercent s.feePercentSetting / 100))) now]
       else s.transfers) := by
  have hfind : findWR s.requests rid = some req := by
    rw [hsplit]
    exact findWR_append hpre hid
  have hnterm : ¬ (req.status = WStatus.APPROVED ∨ req.status = WStatus.REJECTED) := by
    rw [hst]
    simp
  have hq1pre : ∀ x ∈ pre,
      (decide (x.id = rid) && decide (x.status = WStatus.PENDING)) = false := by
    intro x hx
    simp [hpre x hx]
  have hq2pre : ∀ x ∈ pre,
      (decide (x.id = rid) && decide (x.status = WStatus.PROCESSING)) = false := by
    intro x hx
    simp [hpre x hx]
  unfold wdApprove
  cases t with
  | otherError => exact absurd rfl ht
  | success =>
    simp [hfind, hsplit, updateOneWR, findOneAndUpdate_split hq1pre,
      findOneAndUpdate_split hq2pre, findWR_append hpre, hst, hid,
      approvedWR]
  | dupSpendIdError =>
    simp [hfind, hsplit, updateOneWR, findOneAndUpdate_split hq1pre,
      findOneAndUpdate_split hq2pre, findWR_append hpre, hst, hid,
      approvedWR]

/-! ## C3 — withdrawal fee/net conservation -/

/-- C3.  After approving a `PENDING` withdrawal request whose amount is a
whole number of cents (`amount = k/100`), the recorded fee and net satisfy
`fee = roundMoney(amount * feePercent / 100)`,
`net = roundMoney(amount - fee)` and `fee + net = amount` exactly
(fee percent read from the settings, 3 when unset).  For amounts that are
not a whole number of cents the recorded `fee + net` can differ from the
amount — see the counterexample. -/
theorem c3_withdrawal_conservation
    (s : St) (rid : String) (reviewer now : ℤ) (t : TransferOutcome)
    (req : WR) (k : ℤ)
    (hfind : findWR s.requests rid = some req)
    (hst : req.status = WStatus.PENDING)
    (hk : req.amount = (k : ℚ) / 100)
    (ht : t ≠ TransferOutcome.otherError) :
    (wdApprove s rid reviewer now t).2 = ApiResp.success ∧
    ∃ u, findWR (wdApprove s rid reviewer now t).1.requests rid = some u ∧
      u.status = WStatus.APPROVED ∧
      u.fee_amount = some (roundMoney
        (req.amount * getWithdrawalFeePercent s.feePercentSetting / 100)) ∧
      u.net_amount = some (roundMoney (req.amount - roundMoney
        (req.amount * getWithdrawalFeePercent s.feePercentSetting / 100))) ∧
      u.fee_amount.getD 0 + u.net_amount.getD 0 = req.amount := by
  obtain ⟨pre, post, hsp, hpre, hid⟩ := findWR_split hfind
  obtain ⟨h2, hreqs, husers, htr⟩ :=
    wdApprove_pending s rid reviewer now t hsp hpre hid hst ht
  refine ⟨h2, approvedWR req reviewer now (getWithdrawalFeePercent s.feePercentSetting),
    ?_, rfl, rfl, rfl, ?_⟩
  · rw [hreqs]
    exact findWR_append hpre (by simpa [approvedWR] using hid)
  · show roundMoney (req.amount * getWithdrawalFeePercent s.feePercentSetting / 100) +
        roundMoney (req.amount - roundMoney
          (req.amount * getWithdrawalFeePercent s.feePercentSetting / 100)) = req.amount
    rw [hk]
    exact fee_net_conservation k (getWithdrawalFeePercent s.feePercentSetting)

theorem c3_withdrawal_conservation_witness :
    (wdApprove c3State "w1" 11 5000 TransferOutcome.success).2 = ApiResp.success ∧
    ∃ u, findWR (wdApprove c3State "w1" 11 5000 TransferOutcome.success).1.requests "w1" =
        some u ∧
      u.status = WStatus.APPROVED ∧
      u.fee_amount = some (roundMoney
        (c3Req.amount * getWithdrawalFeePercent c3State.feePercentSetting / 100)) ∧
      u.net_amount = some (roundMoney (c3Req.amount - roundMoney
        (c3Req.amount * getWithdrawalFeePercent c3State.feePercentSetting / 100))) ∧
      u.fee_amount.getD 0 + u.net_amount.getD 0 = c3Req.amount :=
  c3_withdrawal_conservation c3State "w1" 11 5000 TransferOutcome.success c3Req 10000
    (by with_unfolding_all decide) rfl rfl (by decide)

theorem c3_conservation_counterexample :
    (findWR (wdApprove c3BadState "w1" 11 5000 TransferOutcome.success).1.requests
        "w1").map (fun r => r.fee_amount.getD 0 + r.net_amount.getD 0) =
      some (1 / 50) ∧
    (findWR c3BadState.requests "w1").map WR.amount = some (1 / 64) ∧
    (1 / 50 : ℚ) ≠ 1 / 64 := by
  with_unfolding_all decide

/-! ## C6 — reject only from PENDING, with full refund -/

/-- C6.  Rejecting is guarded by the atomic conditional update
`{id, status: PENDING} → REJECTED`: on a `PENDING` request it records
reviewer and reason and credits the requester by exactly the escrowed
amount, leaving every other balance untouched; on a request in any other
status nothing changes and the caller gets the not-found response. -/
theorem c6_reject_refunds_escrow
    (s : St) (rid : String) (reviewer : ℤ) (reason : String) (now : ℤ)
    (req : WR) (bal : ℚ)
    (hfind : findWR s.requests rid = some req)
    (huniq : ∀ r ∈ s.requests, r.id = rid → r = req)
    (hbal : alookup s.users req.telegram_id = some bal) :
    (req.status = WStatus.PENDING →
      (wdReject s rid reviewer reason now).2 = ApiResp.success ∧
      (∃ pre post, s.requests = pre ++ req :: post ∧
        (wdReject s rid reviewer reason now).1.requests =
          pre ++ { req with status := WStatus.REJECTED,
                            reviewed_by := some reviewer,
                            rejection_reason := some reason,
                            updated_at := some now } :: post) ∧
      alookup (wdReject s rid reviewer reason now).1.users req.telegram_id =
        some (bal + req.amount) ∧
      (∀ j, j ≠ req.telegram_id →
        alookup (wdReject s rid reviewer reason now).1.users j = alookup s.users j)) ∧
    (req.status ≠ WStatus.PENDING →
      wdReject s rid reviewer reason now = (s, ApiResp.notFound)) := by
  constructor
  · intro hst
    obtain ⟨pre, post, hsp, hpre, hid⟩ := findWR_split hfind
    have hq : (decide (req.id = rid) && decide (req.status = WStatus.PENDING)) = true := by
      simp [hid, hst]
    have hqpre : ∀ x ∈ pre,
        (decide (x.id = rid) && decide (x.status = WStatus.PENDING)) = false := by
      intro x hx
      simp [hpre x hx]
    have hupd := @findOneAndUpdate_split
      (fun r => decide (r.id = rid) && decide (r.status = WStatus.PENDING)) pre hqpre
      (fun r => { r with status := WStatus.REJECTED,
                         reviewed_by := some reviewer,
                         rejection_reason := some reason,
                         updated_at := some now }) req post hq
    rw [hsp] at hfind ⊢
    refine ⟨?_, ⟨pre, post, rfl, ?_⟩, ?_, ?_⟩
    · simp [wdReject, hsp, hupd]
    · simp [wdReject, hsp, hupd]
    · have : alookup (wdReject s rid reviewer reason now).1.users req.telegram_id =
          alookup (bump s.users req.telegram_id req.amount) req.telegram_id := by
        simp [wdReject, hsp, hupd]
      rw [this]
      exact alookup_bump_self req.amount hbal
    · intro j hj
      have : alookup (wdReject s rid reviewer reason now).1.users j =
          alookup (bump s.users req.telegram_id req.amount) j := by
        simp [wdReject, hsp, hupd]
      rw [this]
      exact alookup_bump_other _ _ _ _ hj
  · intro hst
    have hnone : findOneAndUpdate
        (fun r => decide (r.id = rid) && decide (r.status = WStatus.PENDING))
        (fun r => { r with status := WStatus.REJECTED,
                           reviewed_by := some reviewer,
                           rejection_reason := some reason,
                           updated_at := some now }) s.requests = none := by
      apply findOneAndUpdate_none
      intro r hr
      by_cases hrid : r.id = rid
      · have := huniq r hr hrid
        subst this
        simp [hst]
      · simp [hrid]
    simp [wdReject, hnone]

theorem c6_reject_refunds_escrow_witness :
    (c6Req.status = WStatus.PENDING →
      (wdReject c6State "w1" 11 "insufficient docs" 5000).2 = ApiResp.success ∧
      (∃ pre post, c6State.requests = pre ++ c6Req :: post ∧
        (wdReject c6State "w1" 11 "insufficient docs" 5000).1.requests =
          pre ++ { c6Req with status := WStatus.REJECTED,
                               reviewed_by := some 11,
                               rejection_reason := some "insufficient docs",
                               updated_at := some 5000 } :: post) ∧
      alookup (wdReject c6State "w1" 11 "insufficient docs" 5000).1.users
          c6Req.telegram_id = some (0 + c6Req.amount) ∧
      (∀ j, j ≠ c6Req.telegram_id →
        alookup (wdReject c6State "w1" 11 "insufficient docs" 5000).1.users j =
          alookup c6State.users j)) ∧
    (c6Req.status ≠ WStatus.PENDING →
      wdReject c6State "w1" 11 "insufficient docs" 5000 = (c6State, ApiResp.notFound)) :=
  c6_reject_refunds_escrow c6State "w1" 11 "insufficient docs" 5000 c6Req 0
    (by decide) (by decide) (by decide)

/-! ## C5 — withdrawal creation: escrow debit with compensation -/

/-- C5.  Creating a withdrawal request by an eligible role for a positive
amount: with insufficient balance nothing changes and the caller gets a
validation error; with sufficient balance the full amount is debited and a
`PENDING` request for the full amount is appended; when persisting the
request fails after the debit, the full amount is refunded before the error
surfaces, leaving every balance as before. -/
theorem c5_withdrawal_create_compensates
    (s : St) (caller : ℤ) (role : Role) (amount : ℚ) (rid : String) (now : ℤ)
    (persistOk : Bool) (b : ℚ)
    (hrole : eligibleForWithdrawal role = true)
    (hamt : 0 < amount)
    (hbal : alookup s.users caller = some b) :
    (b < amount →
      wdCreate s caller role amount rid now persistOk = (s, ApiResp.badRequest)) ∧
    (amount ≤ b → persistOk = true →
      (wdCreate s caller role amount rid now persistOk).2 = ApiResp.success ∧
      (wdCreate s caller role amount rid now persistOk).1.requests =
        s.requests ++ [{ id := rid, telegram_id := caller, amount := amount,
                         status := WStatus.PENDING, created_at := now }] ∧
      alookup (wdCreate s caller role amount rid now persistOk).1.users caller =
        some (b - amount) ∧
      (∀ j, j ≠ caller →
        alookup (wdCreate s caller role amount rid now persistOk).1.users j =
          alookup s.users j)) ∧
    (amount ≤ b → persistOk = false →
      (wdCreate s caller role amount rid now persistOk).2 = ApiResp.serverError ∧
      (wdCreate s caller role amount rid now persistOk).1.requests = s.requests ∧
      alookup (wdCreate s caller role amount rid now persistOk).1.users caller =
        some b ∧
      (∀ j, j ≠ caller →
        alookup (wdCreate s caller role amount rid now persistOk).1.users j =
          alookup s.users j)) := by
  refine ⟨?_, ?_, ?_⟩
  · intro hlt
    have hdeb := debit_of_lt hbal hlt
    simp [wdCreate, hrole, not_lt.mpr (le_of_lt hamt), hbal, hdeb, hamt]
  · intro hle hpok
    obtain ⟨h1, h2, h3⟩ := debit_of_le hbal hle
    subst hpok
    refine ⟨?_, ?_, ?_, ?_⟩
    · simp [wdCreate, hrole, hbal, h1, hamt]
    · simp [wdCreate, hrole, hbal, h1, hamt]
    · have : alookup (wdCreate s caller role amount rid now true).1.users caller =
          alookup (debitUserBalanceIfEnough s.users caller amount).1 caller := by
        simp [wdCreate, hrole, hbal, h1, hamt]
      rw [this, h2]
    · intro j hj
      have : alookup (wdCreate s caller role amount rid now true).1.users j =
          alookup (debitUserBalanceIfEnough s.users caller amount).1 j := by
        simp [wdCreate, hrole, hbal, h1, hamt]
      rw [this]
      exact h3 j hj
  · intro hle hpok
    obtain ⟨h1, h2, h3⟩ := debit_of_le hbal hle
    subst hpok
    refine ⟨?_, ?_, ?_, ?_⟩
    · simp [wdCreate, hrole, hbal, h1, hamt]
    · simp [wdCreate, hrole, hbal, h1, hamt]
    · have : alookup (wdCreate s caller role amount rid now false).1.users caller =
          alookup (bump (debitUserBalanceIfEnough s.users caller amount).1 caller amount)
            caller := by
        simp [wdCreate, hrole, hbal, h1, hamt]
      rw [this, alookup_bump_self amount h2]
      congr 1
      ring
    · intro j hj
      have : alookup (wdCreate s caller role amount rid now false).1.users j =
          alookup (bump (debitUserBalanceIfEnough s.users caller amount).1 caller amount)
            j := by
        simp [wdCreate, hrole, hbal, h1, hamt]
      rw [this, alookup_bump_other _ _ _ _ hj]
      exact h3 j hj

theorem c5_withdrawal_create_compensates_witness :
    ((50 : ℚ) < 50 →
      wdCreate c5State 9 Role.TRAINER 50 "wr_1" 7 true = (c5State, ApiResp.badRequest)) ∧
    ((50 : ℚ) ≤ 50 → true = true →
      (wdCreate c5State 9 Role.TRAINER 50 "wr_1" 7 true).2 = ApiResp.success ∧
      (wdCreate c5State 9 Role.TRAINER 50 "wr_1" 7 true).1.requests =
        c5State.requests ++ [{ id := "wr_1", telegram_id := 9, amount := 50,
                               status := WStatus.PENDING, created_at := 7 }] ∧
      alookup (wdCreate c5State 9 Role.TRAINER 50 "wr_1" 7 true).1.users 9 =
        some (50 - 50) ∧
      (∀ j, j ≠ (9 : ℤ) →
        alookup (wdCreate c5State 9 Role.TRAINER 50 "wr_1" 7 true).1.users j =
          alookup c5State.users j)) ∧
    ((50 : ℚ) ≤ 50 → true = false →
      (wdCreate c5State 9 Role.TRAINER 50 "wr_1" 7 true).2 = ApiResp.serverError ∧
      (wdCreate c5State 9 Role.TRAINER 50 "wr_1" 7 true).1.requests = c5State.requests ∧
      alookup (wdCreate c5State 9 Role.TRAINER 50 "wr_1" 7 true).1.users 9 = some 50 ∧
      (∀ j, j ≠ (9 : ℤ) →
        alookup (wdCreate c5State 9 Role.TRAINER 50 "wr_1" 7 true).1.users j =
          alookup c5State.users j)) :=
  c5_withdrawal_create_compensates c5State 9 Role.TRAINER 50 "wr_1" 7 true 50
    rfl (by with_unfolding_all decide) (by decide)

/-- C2.  `withdrawToTrainer` accepts only four parameters and manufactures a
fresh `withdraw_<id>_<Date.now()>` spend id; the stable `spendId` the
approval route passes as a fifth argument is silently dropped by JavaScript.
Approving the request at time 5000 therefore sends the gateway spend id
`withdraw_9_5000`, not the stored stable id `withdraw_9_777`, and two
approval attempts at different times send two different spend ids — the
gateway cannot deduplicate them. -/
theorem c2_transfer_spend_id_not_stable :
    (findWR c2State.requests "w1").bind WR.spend_id = some "withdraw_9_777" ∧
    (wdApprove c2State "w1" 11 5000 TransferOutcome.success).1.transfers =
      [{ user_id := 9, asset := "USDT", amount := 97, spend_id := "withdraw_9_5000" }] ∧
    "withdraw_9_5000" ≠ "withdraw_9_777" ∧
    (withdrawToTrainer 9 "USDT" 97 5000).spend_id ≠
      (withdrawToTrainer 9 "USDT" 97 6000).spend_id := by
  with_unfolding_all decide

/-! ## C8 — the stuck-PROCESSING sweep -/

/-- C8.  One sweep run at time `now` turns exactly the requests that are
`PROCESSING` and older than the 10-minute timeout back into `PENDING`
(stamping `updated_at`), leaves every other request byte-for-byte unchanged,
and running the sweep twice at the same instant equals running it once. -/
theorem c8_sweep_returns_stale_processing (now : ℤ) (reqs : List WR) :
    sweepWithdrawals now reqs = reqs.map (sweepOne now) ∧
    (∀ r ∈ reqs, staleProcessing now r = true →
      sweepOne now r = { r with status := WStatus.PENDING, updated_at := some now }) ∧
    (∀ r ∈ reqs, staleProcessing now r = false → sweepOne now r = r) ∧
    sweepWithdrawals now (sweepWithdrawals now reqs) = sweepWithdrawals now reqs := by
  refine ⟨rfl, ?_, ?_, ?_⟩
  · intro r _ hstale
    simp [sweepOne, hstale]
  · intro r _ hstale
    simp [sweepOne, hstale]
  · have hone : ∀ r, sweepOne now (sweepOne now r) = sweepOne now r := by
      intro r
      by_cases hstale : staleProcessing now r = true
      · have h1 : sweepOne now r =
            { r with status := WStatus.PENDING, updated_at := some now } := by
          simp [sweepOne, hstale]
        have h2 : staleProcessing now
            { r with status := WStatus.PENDING, updated_at := some now } = false := by
          simp [staleProcessing]
        rw [h1]
        simp [sweepOne, h2]
      · have hf : staleProcessing now r = false := by
          revert hstale
          cases staleProcessing now r <;> simp
        simp [sweepOne, hf]
    simp only [sweepWithdrawals, List.map_map]
    apply List.map_congr_left
    intro r _
    exact hone r

theorem c8_sweep_returns_stale_processing_witness :
    sweepWithdrawals 2000000
        [{ id := "w1", telegram_id := 9, amount := 50, status := WStatus.PROCESSING,
           created_at := 0, updated_at := some 100 }] =
      [{ id := "w1", telegram_id := 9, amount := 50, status := WStatus.PROCESSING,
         created_at := 0, updated_at := some 100 }].map (sweepOne 2000000) ∧
    (∀ r ∈ [{ id := "w1", telegram_id := 9, amount := 50,
              status := WStatus.PROCESSING, created_at := 0,
              updated_at := some 100 : WR }],
      staleProcessing 2000000 r = true →
      sweepOne 2000000 r = { r with status := WStatus.PENDING,
                                    updated_at := some 2000000 }) ∧
    (∀ r ∈ [{ id := "w1", telegram_id := 9, amount := 50,
              status := WStatus.PROCESSING, created_at := 0,
              updated_at := some 100 : WR }],
      staleProcessing 2000000 r = false → sweepOne 2000000 r = r) ∧
    sweepWithdrawals 2000000 (sweepWithdrawals 2000000
        [{ id := "w1", telegram_id := 9, amount := 50, status := WStatus.PROCESSING,
           created_at := 0, updated_at := some 100 }]) =
      sweepWithdrawals 2000000
        [{ id := "w1", telegram_id := 9, amount := 50, status := WStatus.PROCESSING,
           created_at := 0, updated_at := some 100 }] :=
  c8_sweep_returns_stale_processing 2000000
    [{ id := "w1", telegram_id := 9, amount := 50, status := WStatus.PROCESSING,
       created_at := 0, updated_at := some 100 }]

/-! ## C4 — purchase webhook: record once, split 90/10 -/

theorem alookup_ensure_of_some {l : List (ℤ × ℚ)} {j : ℤ} {v : ℚ} (k : ℤ)
    (h : alookup l j = some v) : alookup (ensureUser l k) j = some v := by
  unfold ensureUser
  cases hk : alookup l k with
  | some b => exact h
  | none => exact alookup_append_left _ h

/-- Normal form of one delivery of a fresh purchase webhook for an existing
program not yet bought by the buyer. -/
theorem webhookStep_fresh_purchase
    (s0 : St) (u : WebhookUpdate) (p : PendingInv) (pid : String) (prog : Program)
    (hu : u.update_type = "invoice_paid")
    (hp : alookup s0.pending u.invoice_id = some p)
    (htype : p.type = PayType.purchase)
    (hpid : p.programId = some pid)
    (hinv : alookup s0.invoices u.invoice_id = none)
    (hprog : alookup s0.programs pid = some prog)
    (htrain : p.trainerId = some prog.authorId)
    (hauth0 : prog.authorId ≠ 0)
    (hnp : (p.userId, pid) ∉ s0.purchases)
    (hamt : 0 < u.amount) :
    webhookStep s0 u =
      ({ s0 with
          pending := aerase s0.pending u.invoice_id,
          users := purchaseUsers s0.users p.userId prog.authorId s0.admin u.amount,
          purchases := s0.purchases ++ [(p.userId, pid)],
          programs := incPurchaseCount s0.programs pid,
          invoices := setInvoice
            (s0.invoices ++
              [(u.invoice_id,
                { type := p.type, status := InvStatus.PROCESSING,
                  telegram_id := p.userId, amount := u.amount, asset := u.asset })])
            u.invoice_id InvStatus.DONE "" },
        ApiResp.ok) := by
  by_cases hc : 0 < roundMoney (u.amount - roundMoney (u.amount * (9 / 10))) ∧
      ¬ s0.admin = (0 : ℤ)
  · simp [webhookStep, handleCryptoWebhook, dispatchPayment, applyPurchase,
      purchaseUsers, hu, hp, htype, hpid, hinv, hprog, htrain, hnp, hamt,
      hamt.ne', hauth0, hc]
  · simp [webhookStep, handleCryptoWebhook, dispatchPayment, applyPurchase,
      purchaseUsers, hu, hp, htype, hpid, hinv, hprog, htrain, hnp, hamt,
      hamt.ne', hauth0, hc]

/-- Normal form of a fresh purchase webhook when the buyer already owns the
program: only the pending entry, the buyer's user record and the invoice
dedup record change. -/
theorem webhookStep_repeat_purchase
    (s0 : St) (u : WebhookUpdate) (p : PendingInv) (pid : String) (prog : Program)
    (hu : u.update_type = "invoice_paid")
    (hp : alookup s0.pending u.invoice_id = some p)
    (htype : p.type = PayType.purchase)
    (hpid : p.programId = some pid)
    (hinv : alookup s0.invoices u.invoice_id = none)
    (hprog : alookup s0.programs pid = some prog)
    (hyes : (p.userId, pid) ∈ s0.purchases) :
    webhookStep s0 u =
      ({ s0 with
          pending := aerase s0.pending u.invoice_id,
          users := ensureUser s0.users p.userId,
          invoices := setInvoice
            (s0.invoices ++
              [(u.invoice_id,
                { type := p.type, status := InvStatus.PROCESSING,
                  telegram_id := p.userId, amount := u.amount, asset := u.asset })])
            u.invoice_id InvStatus.DONE "" },
        ApiResp.ok) := by
  simp [webhookStep, handleCryptoWebhook, dispatchPayment, applyPurchase,
    hu, hp, htype, hpid, hinv, hprog, hyes]

/-- C4 (amended).  A purchase webhook for an existing program: when the buyer
has not bought it yet, exactly one purchase record is created, the counter is
incremented once, the author is credited `roundMoney(0.9 * paid)` and the
platform account the rounded remainder when it is positive; when the buyer
already owns the program the event is a no-op success — no balance change and
no new purchase record. -/
theorem c4_purchase_split
    (s0 : St) (u : WebhookUpdate) (p : PendingInv) (pid : String) (prog : Program)
    (balA balAdm : ℚ)
    (hu : u.update_type = "invoice_paid")
    (hp : alookup s0.pending u.invoice_id = some p)
    (htype : p.type = PayType.purchase)
    (hpid : p.programId = some pid)
    (hinv : alookup s0.invoices u.invoice_id = none)
    (hprog : alookup s0.programs pid = some prog)
    (htrain : p.trainerId = some prog.authorId)
    (hauth0 : prog.authorId ≠ 0)
    (hadmin0 : s0.admin ≠ 0)
    (hne : prog.authorId ≠ s0.admin)
    (hbalA : alookup s0.users prog.authorId = some balA)
    (hbalAdm : alookup s0.users s0.admin = some balAdm)
    (hamt : 0 < u.amount) :
    ((p.userId, pid) ∉ s0.purchases →
      (webhookStep s0 u).2 = ApiResp.ok ∧
      (webhookStep s0 u).1.purchases = s0.purchases ++ [(p.userId, pid)] ∧
      ((webhookStep s0 u).1.purchases.count (p.userId, pid)) =
        s0.purchases.count (p.userId, pid) + 1 ∧
      alookup (webhookStep s0 u).1.programs pid =
        some { prog with purchase_count := prog.purchase_count + 1 } ∧
      alookup (webhookStep s0 u).1.users prog.authorId =
        some (balA + roundMoney (u.amount * (9 / 10))) ∧
      alookup (webhookStep s0 u).1.users s0.admin =
        some (balAdm +
          (if 0 < roundMoney (u.amount - roundMoney (u.amount * (9 / 10))) then
            roundMoney (u.amount - roundMoney (u.amount * (9 / 10)))
           else 0))) ∧
    ((p.userId, pid) ∈ s0.purchases →
      (webhookStep s0 u).2 = ApiResp.ok ∧
      (webhookStep s0 u).1.purchases = s0.purchases ∧
      (webhookStep s0 u).1.programs = s0.programs ∧
      alookup (webhookStep s0 u).1.users prog.authorId = some balA ∧
      alookup (webhookStep s0 u).1.users s0.admin = some balAdm) := by
  constructor
  · intro hnp
    have hnf := webhookStep_fresh_purchase s0 u p pid prog hu hp htype hpid hinv
      hprog htrain hauth0 hnp hamt
    rw [hnf]
    refine ⟨rfl, rfl, ?_, ?_, ?_, ?_⟩
    · have h0 : s0.purchases.count (p.userId, pid) = 0 := List.count_eq_zero.mpr hnp
      simp [List.count_append]
    · exact alookup_incPurchaseCount_self hprog
    · show alookup (purchaseUsers s0.users p.userId prog.authorId s0.admin u.amount)
        prog.authorId = _
      unfold purchaseUsers
      have hbase : alookup
          (bump (ensureUser s0.users p.userId) prog.authorId
            (roundMoney (u.amount * (9 / 10)))) prog.authorId =
          some (balA + roundMoney (u.amount * (9 / 10))) :=
        alookup_bump_self _ (alookup_ensure_of_some _ hbalA)
      by_cases hc : 0 < roundMoney (u.amount - roundMoney (u.amount * (9 / 10))) ∧
          s0.admin ≠ (0 : ℤ)
      · rw [if_pos hc, alookup_bump_other _ _ _ _ hne]
        exact hbase
      · rw [if_neg hc]
        exact hbase
    · show alookup (purchaseUsers s0.users p.userId prog.authorId s0.admin u.amount)
        s0.admin = _
      unfold purchaseUsers
      have hbase : alookup
          (bump (ensureUser s0.users p.userId) prog.authorId
            (roundMoney (u.amount * (9 / 10)))) s0.admin = some balAdm := by
        rw [alookup_bump_other _ _ _ _ (Ne.symm hne)]
        exact alookup_ensure_of_some _ hbalAdm
      by_cases hshare : 0 < roundMoney (u.amount - roundMoney (u.amount * (9 / 10)))
      · rw [if_pos ⟨hshare, hadmin0⟩, if_pos hshare]
        exact alookup_bump_self _ hbase
      · rw [if_neg (fun hc => hshare hc.1), if_neg hshare, add_zero]
        exact hbase
  · intro hyes
    have hnf := webhookStep_repeat_purchase s0 u p pid prog hu hp htype hpid hinv
      hprog hyes
    rw [hnf]
    exact ⟨rfl, rfl, rfl, alookup_ensure_of_some _ hbalA,
      alookup_ensure_of_some _ hbalAdm⟩

theorem c4_purchase_split_witness :
    ((c4Pending.userId, "p1") ∉ c4State.purchases →
      (webhookStep c4State c4Update).2 = ApiResp.ok ∧
      (webhookStep c4State c4Update).1.purchases =
        c4State.purchases ++ [(c4Pending.userId, "p1")] ∧
      ((webhookStep c4State c4Update).1.purchases.count (c4Pending.userId, "p1")) =
        c4State.purchases.count (c4Pending.userId, "p1") + 1 ∧
      alookup (webhookStep c4State c4Update).1.programs "p1" =
        some { c4Prog with purchase_count := c4Prog.purchase_count + 1 } ∧
      alookup (webhookStep c4State c4Update).1.users c4Prog.authorId =
        some (0 + roundMoney (c4Update.amount * (9 / 10))) ∧
      alookup (webhookStep c4State c4Update).1.users c4State.admin =
        some (0 +
          (if 0 < roundMoney (c4Update.amount - roundMoney (c4Update.amount * (9 / 10))) then
            roundMoney (c4Update.amount - roundMoney (c4Update.amount * (9 / 10)))
           else 0))) ∧
    ((c4Pending.userId, "p1") ∈ c4State.purchases →
      (webhookStep c4State c4Update).2 = ApiResp.ok ∧
      (webhookStep c4State c4Update).1.purchases = c4State.purchases ∧
      (webhookStep c4State c4Update).1.programs = c4State.programs ∧
      alookup (webhookStep c4State c4Update).1.users c4Prog.authorId = some 0 ∧
      alookup (webhookStep c4State c4Update).1.users c4State.admin = some 0) :=
  c4_purchase_split c4State c4Update c4Pending "p1" c4Prog 0 0 rfl (by decide)
    rfl rfl (by decide) (by decide) rfl (by decide) (by decide) (by decide)
    (by decide) (by decide) (by with_unfolding_all decide)

theorem c4_purchase_split_counterexample :
    alookup (webhookStep c4State c4BadUpdate).1.users 7 = some (1 / 100) ∧
    (1 / 100 : ℚ) ≠ 0 + (9 / 10) * (1 / 100) ∧
    alookup (webhookStep c4State c4BadUpdate).1.users 1 = some 0 ∧
    (0 : ℚ) ≠ 0 + ((1 / 100) - (9 / 10) * (1 / 100)) := by
  with_unfolding_all decide

theorem nonneg_bump {l : List (ℤ × ℚ)} {k : ℤ} {a : ℚ}
    (h : NonNegBal l) (ha : 0 ≤ a) : NonNegBal (bump l k a) := by
  induction l with
  | nil => intro q hq; simp [bump] at hq
  | cons kv t ih =>
    obtain ⟨i, b⟩ := kv
    have hb : 0 ≤ b := h (i, b) (List.mem_cons_self _ _)
    have ht : NonNegBal t := fun q hq => h q (List.mem_cons_of_mem _ hq)
    intro q hq
    by_cases hk : i = k
    · simp only [bump, if_pos hk] at hq
      rcases List.mem_cons.mp hq with hq | hq
      · rw [hq]
        exact add_nonneg hb ha
      · exact ht q hq
    · simp only [bump, if_neg hk] at hq
      rcases List.mem_cons.mp hq with hq | hq
      · rw [hq]
        exact hb
      · exact ih ht q hq

theorem nonneg_ensure {l : List (ℤ × ℚ)} (k : ℤ)
    (h : NonNegBal l) : NonNegBal (ensureUser l k) := by
  unfold ensureUser
  cases alookup l k with
  | some b => exact h
  | none =>
    intro q hq
    rcases List.mem_append.mp hq with hq | hq
    · exact h q hq
    · simp at hq
      simp [hq]

theorem nonneg_debit {l : List (ℤ × ℚ)} (k : ℤ) (a : ℚ)
    (h : NonNegBal l) : NonNegBal (debitUserBalanceIfEnough l k a).1 := by
  induction l with
  | nil => exact h
  | cons kv t ih =>
    obtain ⟨i, b⟩ := kv
    have hb : 0 ≤ b := h (i, b) (List.mem_cons_self _ _)
    have ht : NonNegBal t := fun q hq => h q (List.mem_cons_of_mem _ hq)
    intro q hq
    by_cases hk : i = k
    · by_cases hle : a ≤ b
      · simp only [debitUserBalanceIfEnough, if_pos hk, if_pos hle] at hq
        rcases List.mem_cons.mp hq with hq | hq
        · rw [hq]
          simpa using sub_nonneg.mpr hle
        · exact ht q hq
      · simp only [debitUserBalanceIfEnough, if_pos hk, if_neg hle] at hq
        rcases List.mem_cons.mp hq with hq | hq
        · rw [hq]
          exact hb
        · exact ht q hq
    · simp only [debitUserBalanceIfEnough, if_neg hk] at hq
      rcases List.mem_cons.mp hq with hq | hq
      · rw [hq]
        exact hb
      · exact ih ht q hq

theorem applyDeposit_nonneg {s : St} {uid : ℤ} {amount : ℚ}
    (ha : 0 ≤ amount) (h : NonNegBal s.users) :
    NonNegBal (applyDeposit s uid amount).users := by
  unfold applyDeposit
  exact nonneg_bump (nonneg_ensure _ h) ha

theorem applyPurchase_nonneg (s : St) (buyer : ℤ) (programId : Option String)
    (amount : ℚ) (trainerId : Option ℤ) (h : NonNegBal s.users) :
    NonNegBal (applyPurchase s buyer programId amount trainerId).1.users := by
  unfold applyPurchase
  cases hprog : alookup s.programs (programId.getD "") with
  | none => exact h
  | some prog =>
    simp only []
    repeat' split
    all_goals try casesm* _ ∧ _
    all_goals
      first
      | exact nonneg_ensure _ h
      | exact nonneg_bump (nonneg_ensure _ h) (roundMoney_nonneg (by nlinarith))
      | exact nonneg_bump
          (nonneg_bump (nonneg_ensure _ h) (roundMoney_nonneg (by nlinarith)))
          (by linarith)
      | exact nonneg_bump (nonneg_ensure _ h) (by linarith)

theorem wdCreate_nonneg (s : St) (caller : ℤ) (role : Role) (amount : ℚ)
    (reqId : String) (now : ℤ) (persistOk : Bool) (h : NonNegBal s.users) :
    NonNegBal (wdCreate s caller role amount reqId now persistOk).1.users := by
  unfold wdCreate
  split
  · exact h
  · split
    · exact h
    · rename_i hamt
      have hpos : 0 < amount := not_not.mp (by simpa using hamt)
      cases alookup s.users caller with
      | none => exact h
      | some b =>
        simp only []
        split
        · exact h
        · split
          · exact nonneg_debit _ _ h
          · exact nonneg_bump (nonneg_debit _ _ h) (le_of_lt hpos)

/-- C9.  Starting from nonnegative balances, any sequence of successful
deposits (nonnegative paid amount), purchases and withdrawal-request
creations keeps every balance nonnegative; moreover a creation whose amount
exceeds the requester's balance leaves the entire state unchanged — the
debit fails atomically before anything else happens. -/
theorem c9_no_negative_balance (s0 : St) (ops : List Op)
    (h0 : NonNegBal s0.users) (hops : ∀ op ∈ ops, opOk op) :
    NonNegBal (ops.foldl applyOp s0).users ∧
    (∀ (caller : ℤ) (role : Role) (amount : ℚ) (reqId : String) (now : ℤ)
        (persistOk : Bool) (b : ℚ),
      alookup s0.users caller = some b → b < amount →
      (wdCreate s0 caller role amount reqId now persistOk).1 = s0) := by
  constructor
  · induction ops generalizing s0 with
    | nil => exact h0
    | cons op rest ih =>
      have hop : opOk op := hops op (List.mem_cons_self _ _)
      have hrest : ∀ o ∈ rest, opOk o := fun o ho => hops o (List.mem_cons_of_mem _ ho)
      have hstep : NonNegBal (applyOp s0 op).users := by
        cases op with
        | deposit uid amount => exact applyDeposit_nonneg hop h0
        | purchase buyer programId amount trainerId =>
          exact applyPurchase_nonneg s0 buyer programId amount trainerId h0
        | wdCreate caller role amount reqId now persistOk =>
          exact wdCreate_nonneg s0 caller role amount reqId now persistOk h0
      simpa [List.foldl_cons] using ih (applyOp s0 op) hstep hrest
  · intro caller role amount reqId now persistOk b hb hlt
    unfold wdCreate
    split
    · rfl
    · split
      · rfl
      · rw [hb]
        simp only [debit_of_lt hb hlt]
        rfl

theorem c9_no_negative_balance_witness :
    NonNegBal (([Op.deposit 42 10,
        Op.purchase 5 (some "p1") 20 (some 7),
        Op.wdCreate 9 Role.TRAINER 50 "wr_1" 7 true] : List Op).foldl applyOp
        c4State).users ∧
    (∀ (caller : ℤ) (role : Role) (amount : ℚ) (reqId : String) (now : ℤ)
        (persistOk : Bool) (b : ℚ),
      alookup c4State.users caller = some b → b < amount →
      (wdCreate c4State caller role amount reqId now persistOk).1 = c4State) :=
  c9_no_negative_balance c4State
    [Op.deposit 42 10, Op.purchase 5 (some "p1") 20 (some 7),
     Op.wdCreate 9 Role.TRAINER 50 "wr_1" 7 true]
    (by intro q hq; fin_cases hq <;> norm_num)
    (by intro op hop; fin_cases hop <;> simp [opOk])

namespace ApproveM

theorem thStep_load_sh1 (rq : WR) (rev t : ℤ) :
    thStep (sh1 rq t) { pc := APc.load, rev := rev, snap := rq } =
      (sh1 rq (t + 1), brancher rq rev) := by
  simp [thStep, sh1, brancher]

theorem thStep_brancher_claims (rq : WR) (rev t : ℤ)
    (hst : rq.status = WStatus.PENDING) (hsp : rq.spend_id = none) :
    thStep (sh1 rq t) (brancher rq rev) =
      (sh2 rq (genSpend rq.telegram_id t) (t + 1) t,
        winner2 rq rev (genSpend rq.telegram_id t)) := by
  simp [thStep, sh1, sh2, brancher, winner2, claimedDoc, hst, hsp]

theorem thStep_brancher_conflict_sh2 (rq : WR) (rev t tc : ℤ) (σ : String)
    (hst : rq.status = WStatus.PENDING) :
    thStep (sh2 rq σ t tc) (brancher rq rev) =
      (sh2 rq σ (t + 1) tc, loserOut rq rev) := by
  simp [thStep, sh2, brancher, loserOut, claimedDoc, hst]

theorem thStep_brancher_conflict_sh3 (rq : WR) (rev t tc : ℤ) (σ : String)
    (hst : rq.status = WStatus.PENDING) :
    thStep (sh3 rq σ t tc) (brancher rq rev) =
      (sh3 rq σ (t + 1) tc, loserOut rq rev) := by
  simp [thStep, sh3, brancher, loserOut, claimedDoc, hst]

theorem thStep_brancher_conflict_sh4 (rq : WR) (rev rw t tc tf : ℤ) (σ : String)
    (hst : rq.status = WStatus.PENDING) :
    thStep (sh4 rq σ rw t tc tf) (brancher rq rev) =
      (sh4 rq σ rw (t + 1) tc tf, loserOut rq rev) := by
  simp [thStep, sh4, brancher, loserOut, claimedDoc, approvedDoc, hst]

theorem thStep_brancher_conflict_sh5 (rq : WR) (rev rw t tc tf : ℤ) (σ : String)
    (hst : rq.status = WStatus.PENDING) :
    thStep (sh5 rq σ rw t tc tf) (brancher rq rev) =
      (sh5 rq σ rw (t + 1) tc tf, loserOut rq rev) := by
  simp [thStep, sh5, brancher, loserOut, claimedDoc, approvedDoc, hst]

theorem thStep_winner2 (rq : WR) (rev t tc : ℤ) (σ : String) :
    thStep (sh2 rq σ t tc) (winner2 rq rev σ) =
      (sh3 rq σ (t + 1) tc, winner3 rq rev σ) := by
  simp [thStep, sh2, sh3, winner2, winner3]

theorem thStep_winner3 (rq : WR) (rev t tc : ℤ) (σ : String) :
    thStep (sh3 rq σ t tc) (winner3 rq rev σ) =
      (sh4 rq σ rev (t + 1) tc t, winner4 rq rev σ) := by
  simp [thStep, sh3, sh4, winner3, winner4, claimedDoc, approvedDoc]

theorem thStep_winner4 (rq : WR) (rev t tc tf : ℤ) (σ : String)
    (hfee : 0 < feeOf rq.amount) :
    thStep (sh4 rq σ rev t tc tf) (winner4 rq rev σ) =
      (sh5 rq σ rev (t + 1) tc tf, winner5 rq rev σ) := by
  simp [thStep, sh4, sh5, winner4, winner5, claimedDoc, approvedDoc, hfee]

theorem thStep_halt (sh : Sh) (th : Th) (hh : th.pc = APc.halt) :
    thStep sh th = (sh, th) := by
  cases th with
  | mk pc rev snap spendId resp =>
    simp at hh
    subst hh
    simp [thStep]

theorem inv_step (rq : WR) (ra rb : ℤ)
    (hst : rq.status = WStatus.PENDING) (hsp : rq.spend_id = none)
    (hfee : 0 < feeOf rq.amount)
    {c : Cfg} (h : Inv rq ra rb c) (w : Bool) :
    Inv rq ra rb (step c w) := by
  cases h with
  | phase1 t =>
    cases w
    · rw [show step ⟨sh1 rq t, brancher rq ra, brancher rq rb⟩ false =
          ⟨(thStep (sh1 rq t) (brancher rq rb)).1, brancher rq ra,
            (thStep (sh1 rq t) (brancher rq rb)).2⟩ from rfl,
        thStep_brancher_claims rq rb t hst hsp]
      exact Inv.b2 _ _ _ _ (Or.inl rfl)
    · rw [show step ⟨sh1 rq t, brancher rq ra, brancher rq rb⟩ true =
          ⟨(thStep (sh1 rq t) (brancher rq ra)).1,
            (thStep (sh1 rq t) (brancher rq ra)).2, brancher rq rb⟩ from rfl,
        thStep_brancher_claims rq ra t hst hsp]
      exact Inv.a2 _ _ _ _ (Or.inl rfl)
  | a2 σ t tc l hl =>
    cases w
    · rcases hl with rfl | rfl
      · rw [show step ⟨sh2 rq σ t tc, winner2 rq ra σ, brancher rq rb⟩ false =
            ⟨(thStep (sh2 rq σ t tc) (brancher rq rb)).1, winner2 rq ra σ,
              (thStep (sh2 rq σ t tc) (brancher rq rb)).2⟩ from rfl,
          thStep_brancher_conflict_sh2 rq rb t tc σ hst]
        exact Inv.a2 _ _ _ _ (Or.inr rfl)
      · rw [show step ⟨sh2 rq σ t tc, winner2 rq ra σ, loserOut rq rb⟩ false =
            ⟨(thStep (sh2 rq σ t tc) (loserOut rq rb)).1, winner2 rq ra σ,
              (thStep (sh2 rq σ t tc) (loserOut rq rb)).2⟩ from rfl,
          thStep_halt _ _ rfl]
        exact Inv.a2 _ _ _ _ (Or.inr rfl)
    · rw [show step ⟨sh2 rq σ t tc, winner2 rq ra σ, l⟩ true =
          ⟨(thStep (sh2 rq σ t tc) (winner2 rq ra σ)).1,
            (thStep (sh2 rq σ t tc) (winner2 rq ra σ)).2, l⟩ from rfl,
        thStep_winner2]
      exact Inv.a3 _ _ _ _ hl
  | a3 σ t tc l hl =>
    cases w
    · rcases hl with rfl | rfl
      · rw [show step ⟨sh3 rq σ t tc, winner3 rq ra σ, brancher rq rb⟩ false =
            ⟨(thStep (sh3 rq σ t tc) (brancher rq rb)).1, winner3 rq ra σ,
              (thStep (sh3 rq σ t tc) (brancher rq rb)).2⟩ from rfl,
          thStep_brancher_conflict_sh3 rq rb t tc σ hst]
        exact Inv.a3 _ _ _ _ (Or.inr rfl)
      · rw [show step ⟨sh3 rq σ t tc, winner3 rq ra σ, loserOut rq rb⟩ false =
            ⟨(thStep (sh3 rq σ t tc) (loserOut rq rb)).1, winner3 rq ra σ,
              (thStep (sh3 rq σ t tc) (loserOut rq rb)).2⟩ from rfl,
          thStep_halt _ _ rfl]
        exact Inv.a3 _ _ _ _ (Or.inr rfl)
    · rw [show step ⟨sh3 rq σ t tc, winner3 rq ra σ, l⟩ true =
          ⟨(thStep (sh3 rq σ t tc) (winner3 rq ra σ)).1,
            (thStep (sh3 rq σ t tc) (winner3 rq ra σ)).2, l⟩ from rfl,
        thStep_winner3]
      exact Inv.a4 _ _ _ _ _ hl
  | a4 σ t tc tf l hl =>
    cases w
    · rcases hl with rfl | rfl
      · rw [show step ⟨sh4 rq σ ra t tc tf, winner4 rq ra σ, brancher rq rb⟩ false =
            ⟨(thStep (sh4 rq σ ra t tc tf) (brancher rq rb)).1, winner4 rq ra σ,
              (thStep (sh4 rq σ ra t tc tf) (brancher rq rb)).2⟩ from rfl,
          thStep_brancher_conflict_sh4 rq rb ra t tc tf σ hst]
        exact Inv.a4 _ _ _ _ _ (Or.inr rfl)
      · rw [show step ⟨sh4 rq σ ra t tc tf, winner4 rq ra σ, loserOut rq rb⟩ false =
            ⟨(thStep (sh4 rq σ ra t tc tf) (loserOut rq rb)).1, winner4 rq ra σ,
              (thStep (sh4 rq σ ra t tc tf) (loserOut rq rb)).2⟩ from rfl,
          thStep_halt _ _ rfl]
        exact Inv.a4 _ _ _ _ _ (Or.inr rfl)
    · rw [show step ⟨sh4 rq σ ra t tc tf, winner4 rq ra σ, l⟩ true =
          ⟨(thStep (sh4 rq σ ra t tc tf) (winner4 rq ra σ)).1,
            (thStep (sh4 rq σ ra t tc tf) (winner4 rq ra σ)).2, l⟩ from rfl,
        thStep_winner4 rq ra t tc tf σ hfee]
      exact Inv.a5 _ _ _ _ _ hl
  | a5 σ t tc tf l hl =>
    cases w
    · rcases hl with rfl | rfl
      · rw [show step ⟨sh5 rq σ ra t tc tf, winner5 rq ra σ, brancher rq rb⟩ false =
            ⟨(thStep (sh5 rq σ ra t tc tf) (brancher rq rb)).1, winner5 rq ra σ,
              (thStep (sh5 rq σ ra t tc tf) (brancher rq rb)).2⟩ from rfl,
          thStep_brancher_conflict_sh5 rq rb ra t tc tf σ hst]
        exact Inv.a5 _ _ _ _ _ (Or.inr rfl)
      · rw [show step ⟨sh5 rq σ ra t tc tf, winner5 rq ra σ, loserOut rq rb⟩ false =
            ⟨(thStep (sh5 rq σ ra t tc tf) (loserOut rq rb)).1, winner5 rq ra σ,
              (thStep (sh5 rq σ ra t tc tf) (loserOut rq rb)).2⟩ from rfl,
          thStep_halt _ _ rfl]
        exact Inv.a5 _ _ _ _ _ (Or.inr rfl)
    · rw [show step ⟨sh5 rq σ ra t tc tf, winner5 rq ra σ, l⟩ true =
          ⟨(thStep (sh5 rq σ ra t tc tf) (winner5 rq ra σ)).1,
            (thStep (sh5 rq σ ra t tc tf) (winner5 rq ra σ)).2, l⟩ from rfl,
        thStep_halt _ _ rfl]
      exact Inv.a5 _ _ _ _ _ hl
  | b2 σ t tc l hl =>
    cases w
    · rw [show step ⟨sh2 rq σ t tc, l, winner2 rq rb σ⟩ false =
          ⟨(thStep (sh2 rq σ t tc) (winner2 rq rb σ)).1, l,
            (thStep (sh2 rq σ t tc) (winner2 rq rb σ)).2⟩ from rfl,
        thStep_winner2]
      exact Inv.b3 _ _ _ _ hl
    · rcases hl with rfl | rfl
      · rw [show step ⟨sh2 rq σ t tc, brancher rq ra, winner2 rq rb σ⟩ true =
            ⟨(thStep (sh2 rq σ t tc) (brancher rq ra)).1,
              (thStep (sh2 rq σ t tc) (brancher rq ra)).2, winner2 rq rb σ⟩ from rfl,
          thStep_brancher_conflict_sh2 rq ra t tc σ hst]
        exact Inv.b2 _ _ _ _ (Or.inr rfl)
      · rw [show step ⟨sh2 rq σ t tc, loserOut rq ra, winner2 rq rb σ⟩ true =
            ⟨(thStep (sh2 rq σ t tc) (loserOut rq ra)).1,
              (thStep (sh2 rq σ t tc) (loserOut rq ra)).2, winner2 rq rb σ⟩ from rfl,
          thStep_halt _ _ rfl]
        exact Inv.b2 _ _ _ _ (Or.inr rfl)
  | b3 σ t tc l hl =>
    cases w
    · rw [show step ⟨sh3 rq σ t tc, l, winner3 rq rb σ⟩ false =
          ⟨(thStep (sh3 rq σ t tc) (winner3 rq rb σ)).1, l,
            (thStep (sh3 rq σ t tc) (winner3 rq rb σ)).2⟩ from rfl,
        thStep_winner3]
      exact Inv.b4 _ _ _ _ _ hl
    · rcases hl with rfl | rfl
      · rw [show step ⟨sh3 rq σ t tc, brancher rq ra, winner3 rq rb σ⟩ true =
            ⟨(thStep (sh3 rq σ t tc) (brancher rq ra)).1,
              (thStep (sh3 rq σ t tc) (brancher rq ra)).2, winner3 rq rb σ⟩ from rfl,
          thStep_brancher_conflict_sh3 rq ra t tc σ hst]
        exact Inv.b3 _ _ _ _ (Or.inr rfl)
      · rw [show step ⟨sh3 rq σ t tc, loserOut rq ra, winner3 rq rb σ⟩ true =
            ⟨(thStep (sh3 rq σ t tc) (loserOut rq ra)).1,
              (thStep (sh3 rq σ t tc) (loserOut rq ra)).2, winner3 rq rb σ⟩ from rfl,
          thStep_halt _ _ rfl]
        exact Inv.b3 _ _ _ _ (Or.inr rfl)
  | b4 σ t tc tf l hl =>
    cases w
    · rw [show step ⟨sh4 rq σ rb t tc tf, l, winner4 rq rb σ⟩ false =
          ⟨(thStep (sh4 rq σ rb t tc tf) (winner4 rq rb σ)).1, l,
            (thStep (sh4 rq σ rb t tc tf) (winner4 rq rb σ)).2⟩ from rfl,
        thStep_winner4 rq rb t tc tf σ hfee]
      exact Inv.b5 _ _ _ _ _ hl
    · rcases hl with rfl | rfl
      · rw [show step ⟨sh4 rq σ rb t tc tf, brancher rq ra, winner4 rq rb σ⟩ true =
            ⟨(thStep (sh4 rq σ rb t tc tf) (brancher rq ra)).1,
              (thStep (sh4 rq σ rb t tc tf) (brancher rq ra)).2, winner4 rq rb σ⟩ from rfl,
          thStep_brancher_conflict_sh4 rq ra rb t tc tf σ hst]
        exact Inv.b4 _ _ _ _ _ (Or.inr rfl)
      · rw [show step ⟨sh4 rq σ rb t tc tf, loserOut rq ra, winner4 rq rb σ⟩ true =
            ⟨(thStep (sh4 rq σ rb t tc tf) (loserOut rq ra)).1,
              (thStep (sh4 rq σ rb t tc tf) (loserOut rq ra)).2, winner4 rq rb σ⟩ from rfl,
          thStep_halt _ _ rfl]
        exact Inv.b4 _ _ _ _ _ (Or.inr rfl)
  | b5 σ t tc tf l hl =>
    cases w
    · rw [show step ⟨sh5 rq σ rb t tc tf, l, winner5 rq rb σ⟩ false =
          ⟨(thStep (sh5 rq σ rb t tc tf) (winner5 rq rb σ)).1, l,
            (thStep (sh5 rq σ rb t tc tf) (winner5 rq rb σ)).2⟩ from rfl,
        thStep_halt _ _ rfl]
      exact Inv.b5 _ _ _ _ _ hl
    · rcases hl with rfl | rfl
      · rw [show step ⟨sh5 rq σ rb t tc tf, brancher rq ra, winner5 rq rb σ⟩ true =
            ⟨(thStep (sh5 rq σ rb t tc tf) (brancher rq ra)).1,
              (thStep (sh5 rq σ rb t tc tf) (brancher rq ra)).2, winner5 rq rb σ⟩ from rfl,
          thStep_brancher_conflict_sh5 rq ra rb t tc tf σ hst]
        exact Inv.b5 _ _ _ _ _ (Or.inr rfl)
      · rw [show step ⟨sh5 rq σ rb t tc tf, loserOut rq ra, winner5 rq rb σ⟩ true =
            ⟨(thStep (sh5 rq σ rb t tc tf) (loserOut rq ra)).1,
              (thStep (sh5 rq σ rb t tc tf) (loserOut rq ra)).2, winner5 rq rb σ⟩ from rfl,
          thStep_halt _ _ rfl]
        exact Inv.b5 _ _ _ _ _ (Or.inr rfl)

theorem inv_run (rq : WR) (ra rb : ℤ)
    (hst : rq.status = WStatus.PENDING) (hsp : rq.spend_id = none)
    (hfee : 0 < feeOf rq.amount)
    {c : Cfg} (h : Inv rq ra rb c) (ws : List Bool) :
    Inv rq ra rb (run c ws) := by
  induction ws generalizing c with
  | nil => exact h
  | cons w ws ih => exact ih (inv_step rq ra rb hst hsp hfee h w)

theorem inv_done (rq : WR) (ra rb : ℤ) {c : Cfg} (h : Inv rq ra rb c)
    (ha : c.a.pc = APc.halt) (hb : c.b.pc = APc.halt) :
    c.sh.transfers = 1 ∧ c.sh.feeCredits = 1 ∧
    c.sh.req.status = WStatus.APPROVED ∧
    ((c.a.resp = some ApiResp.success ∧ c.b.resp = some ApiResp.conflict) ∨
     (c.a.resp = some ApiResp.conflict ∧ c.b.resp = some ApiResp.success)) := by
  cases h with
  | phase1 t => simp [brancher] at ha
  | a2 σ t tc l hl => simp [winner2] at ha
  | a3 σ t tc l hl => simp [winner3] at ha
  | a4 σ t tc tf l hl => simp [winner4] at ha
  | a5 σ t tc tf l hl =>
    rcases hl with rfl | rfl
    · simp [brancher] at hb
    · exact ⟨rfl, rfl, rfl, Or.inl ⟨rfl, rfl⟩⟩
  | b2 σ t tc l hl => simp [winner2] at hb
  | b3 σ t tc l hl => simp [winner3] at hb
  | b4 σ t tc tf l hl => simp [winner4] at hb
  | b5 σ t tc tf l hl =>
    rcases hl with rfl | rfl
    · simp [brancher] at ha
    · exact ⟨rfl, rfl, rfl, Or.inr ⟨rfl, rfl⟩⟩

theorem run_two_loads (rq : WR) (ra rb : ℤ) (x y : Bool) (hxy : x ≠ y) :
    step (step (initCfg rq true ra rb) x) y =
      ⟨sh1 rq 2, brancher rq ra, brancher rq rb⟩ := by
  cases x with
  | true =>
    cases y with
    | true => exact absurd rfl hxy
    | false => simp [step, thStep, initCfg, sh1, brancher]
  | false =>
    cases y with
    | true => simp [step, thStep, initCfg, sh1, brancher]
    | false => exact absurd rfl hxy

end ApproveM

/-- C7 (amended).  Two concurrent approval attempts that both load the
request while it is still `PENDING` (the schedule starts with one load of
each task) and both run to completion produce exactly one external
transfer, one fee credit, the request ends `APPROVED`, and exactly one of
the two reviewers gets the success response while the other gets the
conflict response.  (An attempt whose load happens after the other's
`PENDING → PROCESSING` claim instead joins the in-flight approval and
duplicates the transfer and fee credit — see the counterexample.) -/
theorem c7_approval_race (rq : WR) (ra rb : ℤ) (x y : Bool) (ws : List Bool)
    (hxy : x ≠ y)
    (hst : rq.status = WStatus.PENDING) (hsp : rq.spend_id = none)
    (hfee : 0 < ApproveM.feeOf rq.amount)
    (hdone :
      (ApproveM.run (ApproveM.initCfg rq true ra rb) (x :: y :: ws)).a.pc =
          ApproveM.APc.halt ∧
        (ApproveM.run (ApproveM.initCfg rq true ra rb) (x :: y :: ws)).b.pc =
          ApproveM.APc.halt) :
    (ApproveM.run (ApproveM.initCfg rq true ra rb) (x :: y :: ws)).sh.transfers = 1 ∧
    (ApproveM.run (ApproveM.initCfg rq true ra rb) (x :: y :: ws)).sh.feeCredits = 1 ∧
    (ApproveM.run (ApproveM.initCfg rq true ra rb) (x :: y :: ws)).sh.req.status =
      WStatus.APPROVED ∧
    (((ApproveM.run (ApproveM.initCfg rq true ra rb) (x :: y :: ws)).a.resp =
          some ApiResp.success ∧
        (ApproveM.run (ApproveM.initCfg rq true ra rb) (x :: y :: ws)).b.resp =
          some ApiResp.conflict) ∨
      ((ApproveM.run (ApproveM.initCfg rq true ra rb) (x :: y :: ws)).a.resp =
          some ApiResp.conflict ∧
        (ApproveM.run (ApproveM.initCfg rq true ra rb) (x :: y :: ws)).b.resp =
          some ApiResp.success)) := by
  have hrun : ApproveM.run (ApproveM.initCfg rq true ra rb) (x :: y :: ws) =
      ApproveM.run ⟨ApproveM.sh1 rq 2, ApproveM.brancher rq ra,
        ApproveM.brancher rq rb⟩ ws := by
    show ApproveM.run
        (ApproveM.step (ApproveM.step (ApproveM.initCfg rq true ra rb) x) y) ws = _
    rw [ApproveM.run_two_loads rq ra rb x y hxy]
  rw [hrun] at hdone ⊢
  exact ApproveM.inv_done rq ra rb
    (ApproveM.inv_run rq ra rb hst hsp hfee (ApproveM.Inv.phase1 2) ws)
    hdone.1 hdone.2

theorem c7_approval_race_witness :
    (ApproveM.run (ApproveM.initCfg c7Req true 11 12)
        (true :: false :: [false, true, false, false, false])).sh.transfers = 1 ∧
    (ApproveM.run (ApproveM.initCfg c7Req true 11 12)
        (true :: false :: [false, true, false, false, false])).sh.feeCredits = 1 ∧
    (ApproveM.run (ApproveM.initCfg c7Req true 11 12)
        (true :: false :: [false, true, false, false, false])).sh.req.status =
      WStatus.APPROVED ∧
    (((ApproveM.run (ApproveM.initCfg c7Req true 11 12)
          (true :: false :: [false, true, false, false, false])).a.resp =
          some ApiResp.success ∧
        (ApproveM.run (ApproveM.initCfg c7Req true 11 12)
          (true :: false :: [false, true, false, false, false])).b.resp =
          some ApiResp.conflict) ∨
      ((ApproveM.run (ApproveM.initCfg c7Req true 11 12)
          (true :: false :: [false, true, false, false, false])).a.resp =
          some ApiResp.conflict ∧
        (ApproveM.run (ApproveM.initCfg c7Req true 11 12)
          (true :: false :: [false, true, false, false, false])).b.resp =
          some ApiResp.success)) :=
  c7_approval_race c7Req 11 12 true false [false, true, false, false, false]
    (by decide) rfl rfl (by with_unfolding_all decide)
    (by with_unfolding_all decide)

/-- C7 counterexample: two concurrent approval attempts with two external
transfers, two fee credits, two success responses and no conflict response —
not "exactly one external transfer and one fee credit and exactly one
conflict response". -/
theorem c7_approval_race_counterexample :
    c7BadRun.a.pc = ApproveM.APc.halt ∧ c7BadRun.b.pc = ApproveM.APc.halt ∧
    c7BadRun.sh.transfers = 2 ∧ c7BadRun.sh.feeCredits = 2 ∧
    c7BadRun.a.resp = some ApiResp.success ∧
    c7BadRun.b.resp = some ApiResp.success ∧
    c7BadRun.sh.req.status = WStatus.APPROVED ∧
    ¬ (c7BadRun.sh.transfers = 1 ∧ c7BadRun.sh.feeCredits = 1 ∧
       (c7BadRun.a.resp = some ApiResp.conflict ∨
        c7BadRun.b.resp = some ApiResp.conflict)) := by
  with_unfolding_all decide

end FitBackend
